import Mathlib

set_option linter.unusedVariables false
set_option linter.unreachableTactic false
set_option linter.unusedTactic false

/-!
Verification development for the Turboshaft `WasmGCTypeAnalyzer`
(`src/compiler/turboshaft/wasm-gc-type-reducer.cc`), a dataflow
type-refinement analysis over a control-flow graph of wasm-GC operations.
The analyzer's own code is embedded faithfully below; the external wasm type
lattice, the snapshot table and the traversal iterator are not part of the
sources and are modelled from the specification where needed (each such
definition says so in its doc comment).
-/

/-- Modelled from the spec: the wasm value-type lattice (`wasm::ValueType`,
which lives outside the analyzed sources). A type is either the
default-constructed `ValueType()` (written `unknown`: no information yet) or a
reference type carrying a heap set and a nullability bit. The uninhabited
`kWasmBottom` is the reference type with empty heap set and no null. -/
inductive ValueType where
  | unknown : ValueType
  | ref : Finset Nat → Bool → ValueType
  deriving DecidableEq

namespace ValueType

/-- Modelled from the spec: `wasm::kWasmBottom`, the bottom element. -/
def bottom : ValueType := ValueType.ref ∅ false

/-- Modelled from the spec: `wasm::Union` — the least common supertype:
pointwise heap-set union and nullability disjunction. The analyzer never
passes `unknown` to it (it always guards first), so the `unknown` rows are
arbitrary neutral choices. -/
def union : ValueType → ValueType → ValueType
  | ref h1 n1, ref h2 n2 => ref (h1 ∪ h2) (n1 || n2)
  | unknown, t => t
  | t, unknown => t

/-- Modelled from the spec: `wasm::Intersection` — the most specific type
consistent with both: pointwise heap-set intersection and nullability
conjunction, with `unknown` neutral. -/
def intersection : ValueType → ValueType → ValueType
  | ref h1 n1, ref h2 n2 => ref (h1 ∩ h2) (n1 && n2)
  | unknown, t => t
  | t, unknown => t

/-- Modelled from the spec: `ValueType::is_uninhabited` — no heap value and no
null inhabit the type. The default `unknown` is not uninhabited. -/
def isUninhabited : ValueType → Bool
  | ref h n => decide (h = ∅) && !n
  | unknown => false

/-- Modelled from the spec: `ValueType::AsNonNull` — drop the null. -/
def asNonNull : ValueType → ValueType
  | ref h _ => ref h false
  | unknown => unknown

/-- Modelled from the spec: `wasm::ToNullSentinel` — the null sentinel of the
type's hierarchy: nullable with bottom (empty) heap; a single hierarchy is
modelled. -/
def toNullSentinel : ValueType → ValueType
  | _ => ref ∅ true

/-- Modelled from the spec: `ValueType::is_non_nullable` as used by the
branch refinement: a type is known non-nullable when it is a reference type
without the null bit; `unknown` is not known non-nullable. -/
def isNonNullable : ValueType → Bool
  | ref _ n => !n
  | unknown => false

/-- Modelled from the spec: `wasm::IsSubtypeOf` — heap-set inclusion plus
nullability entailment; nothing is provably a subtype when either side is the
default `unknown`. -/
def isSubtypeOf : ValueType → ValueType → Bool
  | ref h1 n1, ref h2 n2 => decide (h1 ⊆ h2) && (!n1 || n2)
  | _, _ => false

/-- Written from the spec's words (§4.2, used to state claim C3): `intersect`
with `unknown` as neutral element — `intersect(unknown, t) = t` — and
otherwise pointwise heap intersection and nullability conjunction. -/
def specIntersect : ValueType → ValueType → ValueType
  | unknown, t => t
  | t, unknown => t
  | ref h1 n1, ref h2 n2 => ref (h1 ∩ h2) (n1 && n2)

/-- Heap component, for stating merge results (empty for `unknown`). -/
def heapOf : ValueType → Finset Nat
  | ref h _ => h
  | unknown => ∅

/-- Nullability component, for stating merge results. -/
def nullBitOf : ValueType → Bool
  | ref _ n => n
  | unknown => false

end ValueType

/-- Operation kinds dispatched by `WasmGCTypeAnalyzer::ProcessOperations`.
Operands are operation indices into the graph; types are the statically
declared types the real operations carry. `rttCanon` supplies the type index
read by the allocation rules; `other` stands for every opcode the analyzer
ignores. -/
inductive Op where
  | wasmTypeCast : Nat → ValueType → Op
  | wasmTypeCheck : Nat → ValueType → Op
  | assertNotNull : Nat → ValueType → Op
  | nullOp : ValueType → Op
  | isNullOp : Nat → ValueType → Op
  | parameter : Nat → Op
  | structGet : Nat → Nat → Nat → Op
  | structSet : Nat → Op
  | arrayLength : Nat → Op
  | globalGet : ValueType → Op
  | wasmRefFunc : Nat → Op
  | wasmAllocateArray : Nat → Op
  | wasmAllocateStruct : Nat → Op
  | rttCanon : Nat → Op
  | phi : List Nat → Op
  | wasmTypeAnnotationOp : Nat → ValueType → Op
  | branch : Nat → Nat → Nat → Op
  | goto : Nat → Op
  | other : Op
  deriving DecidableEq

/-- The pass-through operand relation of `WasmGCTypeAnalyzer::ResolveAliases`:
casts, non-null assertions and type annotations forward their object operand;
every other operation is its own representative. -/
def passTarget : Op → Option Nat
  | Op.wasmTypeCast obj _ => some obj
  | Op.assertNotNull obj _ => some obj
  | Op.wasmTypeAnnotationOp v _ => some v
  | _ => none

/-- The operation graph: operations addressable by index. -/
structure Graph where
  ops : List Op
  deriving DecidableEq

/-- Operation producing a value index (out-of-range indices are inert). -/
def Graph.producer (g : Graph) (i : Nat) : Op := g.ops.getD i Op.other

/-- Structural invariant of Turboshaft graphs: an operation's inputs are
defined before it, so pass-through edges strictly decrease the index (this is
the acyclicity-by-construction of the spec). -/
def Graph.WF (g : Graph) : Prop :=
  ∀ i j, passTarget (g.producer i) = some j → j < i

/-- Executable bounded check for `Graph.WF`. -/
def Graph.wfCheck (g : Graph) : Bool :=
  (List.range g.ops.length).all fun i =>
    match passTarget (g.ops.getD i Op.other) with
    | some j => decide (j < i)
    | none => true

/-- Fuel-indexed unfolding of the `while (true)` loop in
`WasmGCTypeAnalyzer::ResolveAliases`. -/
def resolveAliasesFuel (g : Graph) : Nat → Nat → Nat
  | 0, i => i
  | fuel + 1, i =>
    match passTarget (g.producer i) with
    | some j => resolveAliasesFuel g fuel j
    | none => i

/-- `WasmGCTypeAnalyzer::ResolveAliases`: follow pass-through producers to the
underlying object. On well-formed graphs (`Graph.WF`) pass-through chains
strictly decrease, so a fuel of `i + 1` always suffices and this equals the
source's unbounded loop; that the loop terminates at the first
non-pass-through producer is claim C8. -/
def resolveAliases (g : Graph) (i : Nat) : Nat := resolveAliasesFuel g (i + 1) i

/-- One pass-through step: the operation producing `i` forwards operand `j`. -/
def PassStep (g : Graph) (i j : Nat) : Prop := passTarget (g.producer i) = some j

/-- Turboshaft block kinds distinguished by `StartNewSnapshotFor`. -/
inductive BlockKind where
  | loopHeader : BlockKind
  | merge : BlockKind
  | branchTarget : BlockKind
  deriving DecidableEq

/-- A block: its index, kind, predecessors in original order (the most
recently added one — `LastPredecessor()`, the back edge of a loop — last),
its operations in program order, and its successors (used by the modelled
loop-revisit marking). -/
structure Block where
  index : Nat
  kind : BlockKind
  predecessors : List Nat
  ops : List Nat
  successors : List Nat
  deriving DecidableEq

/-- The wasm module data the analyzer consults: declared type heaps by type
index, struct field types, and function signature indices. -/
structure WasmModule where
  typeHeaps : List (Finset Nat)
  structs : List (List ValueType)
  functions : List Nat
  deriving DecidableEq

/-- Everything constant during a run: graph, module, current function
signature parameters, and the block list. -/
structure Env where
  graph : Graph
  module : WasmModule
  sigParams : List ValueType
  blocks : List Block
  deriving DecidableEq

def defaultBlock : Block :=
  { index := 0, kind := BlockKind.merge, predecessors := [], ops := [], successors := [] }

def getBlock (env : Env) (i : Nat) : Block := env.blocks.getD i defaultBlock

/-- `Block::LastPredecessor()` — with predecessors kept in original order, the
most recently added predecessor is the last entry. -/
def lastPredecessor (b : Block) : Nat := b.predecessors.getLastD 0

/-- `LastPredecessor()->NeighboringPredecessor()` — the next most recently
added predecessor (the forward edge of a loop header). -/
def neighboringPredecessor (b : Block) : Nat :=
  b.predecessors.getD (b.predecessors.length - 2) 0

/-- `Block::LastOperation(graph)`. -/
def lastOperation (env : Env) (b : Block) : Op :=
  match b.ops.getLast? with
  | some i => env.graph.producer i
  | none => Op.other

/-- A type snapshot: a total map from operation index to known type. Keys that
were never set carry the default `ValueType.unknown`, matching the snapshot
table's default-initialised keys. -/
abbrev TMap := Nat → ValueType

def emptyTMap : TMap := fun _ => ValueType.unknown

def TMap.set (m : TMap) (k : Nat) (v : ValueType) : TMap :=
  fun j => if j = k then v else m j

/-- The analyzer's mutable state: the active snapshot (`types_table_`), the
per-block sealed snapshots (`block_to_snapshot_`), the unreachable-block set
(`block_is_unreachable_`), the exposed `input_type_map_`, the loop-header
first-evaluation flag, and — modelled from the snapshot table's merge mode —
the list of predecessor snapshots the active snapshot was merged from. -/
structure AnalyzerState where
  typesTable : TMap
  blockToSnapshot : Nat → Option TMap
  blockIsUnreachable : List Nat
  inputTypeMap : Nat → Option ValueType
  isFirstLoopHeaderEvaluation : Bool
  mergeInputs : List TMap

/-- `WasmGCTypeAnalyzer::IsReachable`. -/
def isReachable (s : AnalyzerState) (b : Nat) : Bool :=
  !(s.blockIsUnreachable.contains b)

/-- One predecessor contribution is kept when its block is reachable and its
value is not bottom — the filter both scanning loops of
`WasmGCTypeAnalyzer::CreateMergeSnapshot` apply. -/
def pickContrib (p : ValueType × Bool) : Option ValueType :=
  if p.2 = true ∧ p.1 ≠ ValueType.bottom then some p.1 else none

/-- First loop of the merge function: find the first reachable non-bottom
predecessor value (defaulting to bottom) and return the remaining suffix. -/
def findFirstReachable : List (ValueType × Bool) → ValueType × List (ValueType × Bool)
  | [] => (ValueType.bottom, [])
  | (t, r) :: rest =>
    if r = true ∧ t ≠ ValueType.bottom then (t, rest) else findFirstReachable rest

/-- Second loop of the merge function: accumulate the union over the remaining
reachable non-bottom contributions, collapsing to `unknown` when the
accumulator or a contribution is `unknown`, and conjoin the per-contribution
equivalence bit `first == type`. -/
def mergeScan (first : ValueType) :
    ValueType → Bool → List (ValueType × Bool) → ValueType × Bool
  | res, eqv, [] => (res, eqv)
  | res, eqv, (t, r) :: rest =>
    if r = true ∧ t ≠ ValueType.bottom then
      mergeScan first
        (if res = ValueType.unknown ∨ t = ValueType.unknown then ValueType.unknown
         else ValueType.union res t)
        (eqv && decide (first = t)) rest
    else mergeScan first res eqv rest

/-- The per-key body of `WasmGCTypeAnalyzer::CreateMergeSnapshot` (the merge
lambda): merged value and per-key equivalence bit, given every predecessor's
(value, reachable) pair. -/
def mergeKeyFn (l : List (ValueType × Bool)) : ValueType × Bool :=
  let p := findFirstReachable l
  mergeScan p.1 p.1 true p.2

/-- The (value, reachable) pairs the merge lambda receives for key `k`. -/
def contribsAt (snaps : List TMap) (reach : List Bool) (k : Nat) : List (ValueType × Bool) :=
  (snaps.map fun sn => sn k).zip reach

/-- Value component of `WasmGCTypeAnalyzer::CreateMergeSnapshot(predecessors,
reachable)`: the merged snapshot. -/
def createMergeSnapshotMap (snaps : List TMap) (reach : List Bool) : TMap :=
  fun k => (mergeKeyFn (contribsAt snaps reach k)).1

/-- Boolean component of the same function: `!types_are_equivalent`, the
negated conjunction over every key in the table of the per-contribution check
`first == type`. The modelled table tracks one key per graph operation. -/
def createMergeSnapshotBool (numKeys : Nat) (snaps : List TMap) (reach : List Bool) : Bool :=
  !((List.range numKeys).all fun k => (mergeKeyFn (contribsAt snaps reach k)).2)

/-- `WasmGCTypeAnalyzer::RefineTypeKnowledge`: resolve the object, intersect
the proposed type with the current one (taking the proposed type outright when
nothing was known), flag the current block unreachable when the intersection
is uninhabited, store the intersection, and return the previous type. -/
def refineTypeKnowledge (g : Graph) (cur : Nat) (s : AnalyzerState) (object : Nat)
    (newType : ValueType) : ValueType × AnalyzerState :=
  let obj := resolveAliases g object
  let previous := s.typesTable obj
  let intersectionType :=
    if previous = ValueType.unknown then newType
    else ValueType.intersection previous newType
  let s1 :=
    if intersectionType.isUninhabited = true then
      { s with blockIsUnreachable := cur :: s.blockIsUnreachable }
    else s
  (previous, { s1 with typesTable := s1.typesTable.set obj intersectionType })

/-- `WasmGCTypeAnalyzer::RefineTypeKnowledgeNotNull`: resolve the object, flag
the current block unreachable when the previous type is already uninhabited,
store `AsNonNull(previous)` (no intersection), and return the previous type. -/
def refineTypeKnowledgeNotNull (g : Graph) (cur : Nat) (s : AnalyzerState) (object : Nat) :
    ValueType × AnalyzerState :=
  let obj := resolveAliases g object
  let previous := s.typesTable obj
  let s1 :=
    if previous.isUninhabited = true then
      { s with blockIsUnreachable := cur :: s.blockIsUnreachable }
    else s
  (previous, { s1 with typesTable := s1.typesTable.set obj previous.asNonNull })

/-- `WasmGCTypeAnalyzer::GetResolvedType`. -/
def getResolvedType (g : Graph) (s : AnalyzerState) (object : Nat) : ValueType :=
  s.typesTable (resolveAliases g object)

/-- Write one entry of `input_type_map_`. -/
def setInputType (s : AnalyzerState) (idx : Nat) (t : ValueType) : AnalyzerState :=
  { s with inputTypeMap := fun k => if k = idx then some t else s.inputTypeMap k }

/-- Modelled from the spec: `SnapshotTable::GetPredecessorValue` (the snapshot
table is external to these sources) — while the active snapshot was started
as a merge, the value predecessor `i` contributed for `key`. -/
def getPredecessorValue (s : AnalyzerState) (key : Nat) (i : Nat) : ValueType :=
  (s.mergeInputs.getD i emptyTMap) key

/-- `WasmGCTypeAnalyzer::ProcessTypeCast`. -/
def processTypeCast (env : Env) (cur : Nat) (s : AnalyzerState) (idx obj : Nat)
    (toTy : ValueType) : AnalyzerState :=
  let p := refineTypeKnowledge env.graph cur s obj toTy
  setInputType p.2 idx p.1

/-- `WasmGCTypeAnalyzer::ProcessTypeCheck` — metadata only, no narrowing. -/
def processTypeCheck (env : Env) (cur : Nat) (s : AnalyzerState) (idx obj : Nat) :
    AnalyzerState :=
  setInputType s idx (getResolvedType env.graph s obj)

/-- `WasmGCTypeAnalyzer::ProcessAssertNotNull`. -/
def processAssertNotNull (env : Env) (cur : Nat) (s : AnalyzerState) (idx obj : Nat)
    (ty : ValueType) : AnalyzerState :=
  let p := refineTypeKnowledge env.graph cur s obj ty.asNonNull
  setInputType p.2 idx p.1

/-- `WasmGCTypeAnalyzer::ProcessIsNull` — metadata only. -/
def processIsNull (env : Env) (cur : Nat) (s : AnalyzerState) (idx obj : Nat) :
    AnalyzerState :=
  setInputType s idx (getResolvedType env.graph s obj)

/-- `WasmGCTypeAnalyzer::ProcessParameter` — the instance parameter (index 0)
is skipped; others are seeded from the signature. -/
def processParameter (env : Env) (cur : Nat) (s : AnalyzerState) (idx paramIndex : Nat) :
    AnalyzerState :=
  if paramIndex ≠ 0 then
    (refineTypeKnowledge env.graph cur s idx
      (env.sigParams.getD (paramIndex - 1) ValueType.unknown)).2
  else s

/-- Declared field type lookup (`struct_get.type->field(field_index)`). -/
def structFieldType (env : Env) (typeIndex fieldIndex : Nat) : ValueType :=
  (env.module.structs.getD typeIndex []).getD fieldIndex ValueType.unknown

/-- `WasmGCTypeAnalyzer::ProcessStructGet` — implicit null check recorded as
metadata, then the result is seeded with the declared field type. -/
def processStructGet (env : Env) (cur : Nat) (s : AnalyzerState)
    (idx obj typeIndex fieldIndex : Nat) : AnalyzerState :=
  let p := refineTypeKnowledgeNotNull env.graph cur s obj
  let s2 := setInputType p.2 idx p.1
  (refineTypeKnowledge env.graph cur s2 idx (structFieldType env typeIndex fieldIndex)).2

/-- `WasmGCTypeAnalyzer::ProcessStructSet` — implicit null check only. -/
def processStructSet (env : Env) (cur : Nat) (s : AnalyzerState) (idx obj : Nat) :
    AnalyzerState :=
  let p := refineTypeKnowledgeNotNull env.graph cur s obj
  setInputType p.2 idx p.1

/-- `WasmGCTypeAnalyzer::ProcessArrayLength` — implicit null check only. -/
def processArrayLength (env : Env) (cur : Nat) (s : AnalyzerState) (idx arr : Nat) :
    AnalyzerState :=
  let p := refineTypeKnowledgeNotNull env.graph cur s arr
  setInputType p.2 idx p.1

/-- `WasmGCTypeAnalyzer::ProcessGlobalGet`. -/
def processGlobalGet (env : Env) (cur : Nat) (s : AnalyzerState) (idx : Nat)
    (ty : ValueType) : AnalyzerState :=
  (refineTypeKnowledge env.graph cur s idx ty).2

/-- `wasm::ValueType::Ref(type_index)` over the modelled module. -/
def refTypeOf (env : Env) (typeIndex : Nat) : ValueType :=
  ValueType.ref (env.module.typeHeaps.getD typeIndex ∅) false

/-- `WasmGCTypeAnalyzer::ProcessRefFunc`. -/
def processRefFunc (env : Env) (cur : Nat) (s : AnalyzerState) (idx functionIndex : Nat) :
    AnalyzerState :=
  (refineTypeKnowledge env.graph cur s idx
    (refTypeOf env (env.module.functions.getD functionIndex 0))).2

/-- `WasmGCTypeAnalyzer::ProcessAllocateArray` — the rtt operand's
`RttCanonOp` supplies the exact type index. -/
def processAllocateArray (env : Env) (cur : Nat) (s : AnalyzerState) (idx rtt : Nat) :
    AnalyzerState :=
  match env.graph.producer rtt with
  | Op.rttCanon t => (refineTypeKnowledge env.graph cur s idx (refTypeOf env t)).2
  | _ => s

/-- `WasmGCTypeAnalyzer::ProcessAllocateStruct`. -/
def processAllocateStruct (env : Env) (cur : Nat) (s : AnalyzerState) (idx rtt : Nat) :
    AnalyzerState :=
  match env.graph.producer rtt with
  | Op.rttCanon t => (refineTypeKnowledge env.graph cur s idx (refTypeOf env t)).2
  | _ => s

/-- The loop over `phi.input(1..)` in `WasmGCTypeAnalyzer::ProcessPhi`:
`none` models the early `return` on an `unknown` contribution; bottom
contributions are skipped; otherwise the union is accumulated. -/
def phiUnionLoop (env : Env) (s : AnalyzerState) :
    List Nat → Nat → ValueType → Option ValueType
  | [], _, u => some u
  | i :: rest, k, u =>
    let t := getPredecessorValue s (resolveAliases env.graph i) k
    if t = ValueType.unknown then none
    else if t = ValueType.bottom then phiUnionLoop env s rest (k + 1) u
    else if u = ValueType.bottom then phiUnionLoop env s rest (k + 1) t
    else phiUnionLoop env s rest (k + 1) (ValueType.union u t)

/-- `WasmGCTypeAnalyzer::ProcessPhi`. -/
def processPhi (env : Env) (cur : Nat) (s : AnalyzerState) (idx : Nat)
    (inputs : List Nat) : AnalyzerState :=
  if s.isFirstLoopHeaderEvaluation = true then
    (refineTypeKnowledge env.graph cur s idx
      (getResolvedType env.graph s (inputs.headD 0))).2
  else
    match inputs with
    | [] => s
    | i0 :: rest =>
      let u0 := getPredecessorValue s (resolveAliases env.graph i0) 0
      if u0 = ValueType.unknown then s
      else
        match phiUnionLoop env s rest 1 u0 with
        | none => s
        | some u => (refineTypeKnowledge env.graph cur s idx u).2

/-- `WasmGCTypeAnalyzer::ProcessTypeAnnotation` — refines the annotated value
(the operand), not the annotation's own index, and records no metadata. -/
def processTypeAnnotationOp (env : Env) (cur : Nat) (s : AnalyzerState) (value : Nat)
    (ty : ValueType) : AnalyzerState :=
  (refineTypeKnowledge env.graph cur s value ty).2

/-- `WasmGCTypeAnalyzer::ProcessNull`. -/
def processNull (env : Env) (cur : Nat) (s : AnalyzerState) (idx : Nat)
    (ty : ValueType) : AnalyzerState :=
  (refineTypeKnowledge env.graph cur s idx (ValueType.toNullSentinel ty)).2

/-- `WasmGCTypeAnalyzer::ProcessBranchOnTarget`: condition-specific narrowing
at the single-predecessor target of a conditional branch. -/
def processBranchOnTarget (env : Env) (cur target : Nat) (s : AnalyzerState)
    (cond ifTrue ifFalse : Nat) : AnalyzerState :=
  match env.graph.producer cond with
  | Op.wasmTypeCheck obj toTy =>
    if ifTrue = target then (refineTypeKnowledge env.graph cur s obj toTy).2
    else if ValueType.isSubtypeOf (getResolvedType env.graph s obj) toTy = true then
      { s with blockIsUnreachable := target :: s.blockIsUnreachable }
    else s
  | Op.isNullOp obj ty =>
    if ifTrue = target then
      if (getResolvedType env.graph s obj).isNonNullable = true then
        { s with blockIsUnreachable := target :: s.blockIsUnreachable }
      else (refineTypeKnowledge env.graph cur s obj (ValueType.toNullSentinel ty)).2
    else (refineTypeKnowledge env.graph cur s obj ty.asNonNull).2
  | _ => s

/-- Opcode dispatch of `WasmGCTypeAnalyzer::ProcessOperations`. -/
def processOperation (env : Env) (cur : Nat) (s : AnalyzerState) (idx : Nat) :
    AnalyzerState :=
  match env.graph.producer idx with
  | Op.wasmTypeCast obj toTy => processTypeCast env cur s idx obj toTy
  | Op.wasmTypeCheck obj _ => processTypeCheck env cur s idx obj
  | Op.assertNotNull obj ty => processAssertNotNull env cur s idx obj ty
  | Op.nullOp ty => processNull env cur s idx ty
  | Op.isNullOp obj _ => processIsNull env cur s idx obj
  | Op.parameter p => processParameter env cur s idx p
  | Op.structGet obj t f => processStructGet env cur s idx obj t f
  | Op.structSet obj => processStructSet env cur s idx obj
  | Op.arrayLength arr => processArrayLength env cur s idx arr
  | Op.globalGet ty => processGlobalGet env cur s idx ty
  | Op.wasmRefFunc f => processRefFunc env cur s idx f
  | Op.wasmAllocateArray rtt => processAllocateArray env cur s idx rtt
  | Op.wasmAllocateStruct rtt => processAllocateStruct env cur s idx rtt
  | Op.phi inputs => processPhi env cur s idx inputs
  | Op.wasmTypeAnnotationOp v ty => processTypeAnnotationOp env cur s v ty
  | Op.rttCanon _ => s
  | Op.branch _ _ _ => s
  | Op.goto _ => s
  | Op.other => s

/-- `WasmGCTypeAnalyzer::ProcessOperations`. -/
def processOperations (env : Env) (cur : Nat) (s : AnalyzerState) (b : Block) :
    AnalyzerState :=
  b.ops.foldl (fun st idx => processOperation env cur st idx) s

/-- `WasmGCTypeAnalyzer::CreateMergeSnapshot(const Block&)`: collect
predecessor snapshots and reachability bits — the iteration yields the most
recent predecessor first and is then reversed back to original order — and
start the merged snapshot as the active one. -/
def createMergeSnapshotForBlock (env : Env) (s : AnalyzerState) (b : Block) :
    AnalyzerState :=
  let snapshots := (b.predecessors.reverse.map fun p =>
    (s.blockToSnapshot p).getD emptyTMap).reverse
  let reachable := (b.predecessors.reverse.map fun p => isReachable s p).reverse
  { s with typesTable := createMergeSnapshotMap snapshots reachable,
           mergeInputs := snapshots }

/-- The reset at the top of `StartNewSnapshotFor`: clear the loop-header
first-evaluation flag and the block's (possibly stale) unreachability bit. -/
def resetForBlock (s : AnalyzerState) (b : Block) : AnalyzerState :=
  { s with isFirstLoopHeaderEvaluation := false,
           blockIsUnreachable := s.blockIsUnreachable.filter fun x => x ≠ b.index }

/-- The branch-target seed of `StartNewSnapshotFor`: copy the single
predecessor's sealed snapshot. -/
def seedFromLastPredecessor (s : AnalyzerState) (b : Block) : AnalyzerState :=
  { resetForBlock s b with
      typesTable := ((resetForBlock s b).blockToSnapshot (lastPredecessor b)).getD emptyTMap,
      mergeInputs := [] }

/-- `WasmGCTypeAnalyzer::StartNewSnapshotFor`: reset the block's
first-evaluation flag and reachability, then seed the active snapshot — empty
for the entry block, merged for a revisited loop header, copied from the
forward edge for a first-time loop header, copied plus branch-refined for a
branch target, merged for an ordinary merge block. -/
def startNewSnapshotFor (env : Env) (s : AnalyzerState) (b : Block) : AnalyzerState :=
  if b.predecessors.length = 0 then
    { resetForBlock s b with typesTable := emptyTMap, mergeInputs := [] }
  else if b.kind = BlockKind.loopHeader then
    match (resetForBlock s b).blockToSnapshot (lastPredecessor b) with
    | some _ => createMergeSnapshotForBlock env (resetForBlock s b) b
    | none =>
      { resetForBlock s b with
          isFirstLoopHeaderEvaluation := true,
          typesTable := ((resetForBlock s b).blockToSnapshot
            (neighboringPredecessor b)).getD emptyTMap,
          mergeInputs := [] }
  else if b.kind = BlockKind.branchTarget then
    match lastOperation env (getBlock env (lastPredecessor b)) with
    | Op.branch c t f =>
      processBranchOnTarget env b.index b.index (seedFromLastPredecessor s b) c t f
    | _ => seedFromLastPredecessor s b
  else createMergeSnapshotForBlock env (resetForBlock s b) b

/-- `WasmGCTypeAnalyzer::ProcessBlock`. -/
def processBlock (env : Env) (s : AnalyzerState) (b : Block) : AnalyzerState :=
  processOperations env b.index (startNewSnapshotFor env s b) b

/-- Seal the active snapshot and record it for the block (`Run`, the two lines
after `ProcessBlock`). -/
def sealAndStore (env : Env) (s : AnalyzerState) (b : Block) : AnalyzerState :=
  let s1 := processBlock env s b
  { s1 with blockToSnapshot :=
      fun j => if j = b.index then some s1.typesTable else s1.blockToSnapshot j }

def getSnapshot (s : AnalyzerState) (b : Nat) : TMap :=
  (s.blockToSnapshot b).getD emptyTMap

/-- Observable events of one driver iteration. `markLoopForRevisitSkipHeader`
models `AnalyzerIterator::MarkLoopForRevisitSkipHeader` (the iterator is
external to these sources): per the spec it pushes the loop header's
successors onto the traversal stack, so the loop body is revisited while the
header itself is not re-derived again in this round. -/
inductive Event where
  | processed : Nat → Event
  | markLoopForRevisitSkipHeader : Nat → Event
  deriving DecidableEq

/-- One iteration of the driver loop in `WasmGCTypeAnalyzer::Run`: process the
block, seal and record its snapshot, and — when the block is reachable and
ends in the goto forming the back edge of a loop header — re-process the
header, compare the old header snapshot against the recomputed one through
`CreateMergeSnapshot` (whose merged snapshot is sealed and discarded), and on
a reported difference record the recomputed snapshot as the header's snapshot
and mark the loop body for revisit. -/
def runStep (env : Env) (s : AnalyzerState) (b : Block) : AnalyzerState × List Event :=
  let s1 := sealAndStore env s b
  match lastOperation env b with
  | Op.goto dest =>
    if isReachable s1 b.index = true ∧ (getBlock env dest).kind = BlockKind.loopHeader
        ∧ lastPredecessor (getBlock env dest) = b.index then
      let s2 := processBlock env s1 (getBlock env dest)
      let oldSnapshot := getSnapshot s1 dest
      let candidate := s2.typesTable
      let needsRevisit :=
        createMergeSnapshotBool env.graph.ops.length [oldSnapshot, candidate] [true, true]
      if needsRevisit = true then
        ({ s2 with blockToSnapshot :=
              fun j => if j = dest then some candidate else s2.blockToSnapshot j },
         [Event.processed b.index, Event.processed dest,
          Event.markLoopForRevisitSkipHeader dest])
      else (s2, [Event.processed b.index, Event.processed dest])
    else (s1, [Event.processed b.index])
  | _ => (s1, [Event.processed b.index])

/-- Concrete sample type: non-null reference with heap 1. -/
def tA : ValueType := ValueType.ref {1} false

/-- Concrete sample type: non-null reference with heap 2. -/
def tB : ValueType := ValueType.ref {2} false

/-- Concrete sample type: non-null reference with heaps 1 and 2. -/
def tC : ValueType := ValueType.ref {1, 2} false

/-- Concrete sample type: nullable reference with heaps 1 and 2. -/
def tS : ValueType := ValueType.ref {1, 2} true

/-- A fresh analyzer state, as at the start of a run. -/
def baseState : AnalyzerState :=
  { typesTable := emptyTMap, blockToSnapshot := fun _ => none, blockIsUnreachable := [],
    inputTypeMap := fun _ => none, isFirstLoopHeaderEvaluation := false, mergeInputs := [] }

/-- Witness environment for the branch-refinement claim: value 0 is an
ordinary object, operation 1 type-checks it against `tA`. -/
def wEnvBranch : Env :=
  { graph := { ops := [Op.other, Op.wasmTypeCheck 0 tA] },
    module := { typeHeaps := [], structs := [], functions := [] },
    sigParams := [], blocks := [] }

/-- Witness environment for the struct.get claim: value 0 is an ordinary
object, operation 1 reads field 0 of struct type 0 (declared field type
`tB`). -/
def wEnvStruct : Env :=
  { graph := { ops := [Op.other, Op.structGet 0 0 0] },
    module := { typeHeaps := [], structs := [[tB]], functions := [] },
    sigParams := [], blocks := [] }

/-- Witness state for the struct.get claim: the object (value 0) is known to
have the nullable type `tS`. -/
def wStateStruct : AnalyzerState :=
  { baseState with typesTable := TMap.set emptyTMap 0 tS }

/-- Witness state where the object (value 0) is known to be the null
sentinel. -/
def wStateNullObj : AnalyzerState :=
  { baseState with typesTable := TMap.set emptyTMap 0 (ValueType.ref ∅ true) }

/-- Witness graph for alias resolution: value 3 is an annotation of value 2,
which asserts value 1 non-null, which casts value 0, an ordinary object. -/
def wGraphAlias : Graph :=
  { ops := [Op.other, Op.wasmTypeCast 0 tA, Op.assertNotNull 1 tA,
            Op.wasmTypeAnnotationOp 2 tA] }

/-- Value accumulator of `mergeScan`, on the already-filtered contribution
list: the merged value depends only on the kept contributions. -/
def scanAccum : ValueType → List ValueType → ValueType
  | res, [] => res
  | res, t :: ts =>
    scanAccum
      (if res = ValueType.unknown ∨ t = ValueType.unknown then ValueType.unknown
       else ValueType.union res t) ts

/-- Lattice coordinates of a modelled type (used to state the merge's closed
form): heap set and nullability, with `unknown` mapped to the bottom pair. -/
def toProd : ValueType → Finset Nat × Bool
  | ValueType.ref h n => (h, n)
  | ValueType.unknown => (∅, false)

/-- Constant snapshot mapping every key to `tA`. -/
def wSnapA : TMap := fun _ => tA

/-- Constant snapshot mapping every key to `tB`. -/
def wSnapB : TMap := fun _ => tB

/-- The list of per-predecessor contributed types a phi collects:
`GetPredecessorValue(resolve(input[k]), k)` for each input, starting at
predecessor index `k`. -/
def phiContribs (env : Env) (s : AnalyzerState) : List Nat → Nat → List ValueType
  | [], _ => []
  | i :: rest, k =>
    getPredecessorValue s (resolveAliases env.graph i) k ::
      phiContribs env s rest (k + 1)

/-- Written from the spec's words (claim C4): the phi merge value — drop the
bottom contributions and accumulate the remaining ones by union, starting
from the first kept one (bottom when none is kept). -/
def phiAccum (cs : List ValueType) : ValueType :=
  match cs.filter (fun t => !decide (t = ValueType.bottom)) with
  | [] => ValueType.bottom
  | f :: rest => rest.foldl ValueType.union f

/-- The accumulator step of `ProcessPhi`, folded over the remaining
contributions. -/
def accumFrom (u : ValueType) (cs : List ValueType) : ValueType :=
  cs.foldl
    (fun acc t =>
      if t = ValueType.bottom then acc
      else if acc = ValueType.bottom then t
      else ValueType.union acc t) u

/-- Witness environment for the phi claim: values 0 and 1 are ordinary
objects, operation 2 is a phi over them. -/
def wEnvPhi : Env :=
  { graph := { ops := [Op.other, Op.other, Op.phi [0, 1]] },
    module := { typeHeaps := [], structs := [], functions := [] },
    sigParams := [], blocks := [] }

/-- Witness state for the phi claim: the active snapshot was merged from two
predecessor snapshots, contributing `tA` for value 0 and `tB` for value 1. -/
def wStatePhi : AnalyzerState :=
  { baseState with
      mergeInputs := [TMap.set emptyTMap 0 tA, TMap.set emptyTMap 1 tB] }

/-- An empty wasm module for driver scenarios. -/
def wModuleEmpty : WasmModule := { typeHeaps := [], structs := [], functions := [] }

/-- Driver scenario, entry block 0. -/
def wBlockEntry : Block :=
  { index := 0, kind := BlockKind.merge, predecessors := [], ops := [0, 1],
    successors := [1] }

/-- Driver scenario, loop header block 1: forward edge from block 0, back edge
from block 2; one operation (3) annotating value 5. -/
def wBlockHeader : Block :=
  { index := 1, kind := BlockKind.loopHeader, predecessors := [0, 2], ops := [3],
    successors := [2] }

/-- Driver scenario, loop-closing block 2: single predecessor 1; defines value
5 and ends in the back-edge goto to the header. -/
def wBlockClosing : Block :=
  { index := 2, kind := BlockKind.branchTarget, predecessors := [1], ops := [5, 6],
    successors := [1] }

/-- Driver scenario environment: a two-block loop. Value 5 is defined (as a
global read of type `tB`) only inside the loop body, so the old header
snapshot knows nothing about it while the recomputed candidate types it. -/
def wEnvLoop : Env :=
  { graph := { ops := [Op.other, Op.goto 1, Op.other, Op.wasmTypeAnnotationOp 5 tB,
      Op.other, Op.globalGet tB, Op.goto 1] },
    module := wModuleEmpty, sigParams := [],
    blocks := [wBlockEntry, wBlockHeader, wBlockClosing] }

/-- Driver scenario state: blocks 0 (entry) and 1 (header, first evaluation)
already sealed with empty snapshots; block 2 not yet visited. -/
def wStateLoop : AnalyzerState :=
  { baseState with
      blockToSnapshot := fun j => if j = 0 ∨ j = 1 then some emptyTMap else none }

/-- Loop-closing block for the unreachable-closing-block scenario: value 4 is
a global of type `tA`, operation 5 casts it to the disjoint `tB` (an
uninhabited intersection, marking the block unreachable), then the back-edge
goto. -/
def wBlockClosingDead : Block :=
  { index := 2, kind := BlockKind.branchTarget, predecessors := [1], ops := [4, 5, 6],
    successors := [1] }

/-- Environment for the unreachable-closing-block scenario. -/
def wEnvLoopDead : Env :=
  { graph := { ops := [Op.other, Op.goto 1, Op.other, Op.wasmTypeAnnotationOp 5 tB,
      Op.globalGet tA, Op.wasmTypeCast 4 tB, Op.goto 1] },
    module := wModuleEmpty, sigParams := [],
    blocks := [wBlockEntry, wBlockHeader, wBlockClosingDead] }

theorem TMap.get_set_self (m : TMap) (k : Nat) (v : ValueType) : (m.set k v) k = v := by
  simp [TMap.set]

theorem TMap.get_set_ne (m : TMap) (k : Nat) (v : ValueType) (j : Nat) (h : j ≠ k) :
    (m.set k v) j = m j := by
  simp [TMap.set, h]

/-- The spec-level intersect agrees with the source's unknown special case. -/
theorem specIntersect_eq_sourceIntersect (a b : ValueType) :
    ValueType.specIntersect a b
      = (if a = ValueType.unknown then b else ValueType.intersection a b) := by
  cases a <;> cases b <;> simp [ValueType.specIntersect, ValueType.intersection]

theorem refineTypeKnowledge_fst (g : Graph) (cur : Nat) (s : AnalyzerState) (v : Nat)
    (P : ValueType) :
    (refineTypeKnowledge g cur s v P).1 = s.typesTable (resolveAliases g v) := rfl

theorem refineTypeKnowledge_typesTable (g : Graph) (cur : Nat) (s : AnalyzerState) (v : Nat)
    (P : ValueType) :
    (refineTypeKnowledge g cur s v P).2.typesTable
      = s.typesTable.set (resolveAliases g v)
          (ValueType.specIntersect (s.typesTable (resolveAliases g v)) P) := by
  rw [specIntersect_eq_sourceIntersect]
  simp only [refineTypeKnowledge]
  split <;> first
  | rfl
  | (split <;> rfl)

theorem refineTypeKnowledge_blockIsUnreachable (g : Graph) (cur : Nat) (s : AnalyzerState)
    (v : Nat) (P : ValueType) :
    (refineTypeKnowledge g cur s v P).2.blockIsUnreachable
      = (if (ValueType.specIntersect (s.typesTable (resolveAliases g v)) P).isUninhabited = true
         then cur :: s.blockIsUnreachable else s.blockIsUnreachable) := by
  rw [specIntersect_eq_sourceIntersect]
  simp only [refineTypeKnowledge]
  split <;> first
  | rfl
  | (split <;> rfl)

theorem refineTypeKnowledge_inputTypeMap (g : Graph) (cur : Nat) (s : AnalyzerState) (v : Nat)
    (P : ValueType) :
    (refineTypeKnowledge g cur s v P).2.inputTypeMap = s.inputTypeMap := by
  simp only [refineTypeKnowledge]
  split <;> first
  | rfl
  | (split <;> rfl)

theorem refineTypeKnowledge_blockToSnapshot (g : Graph) (cur : Nat) (s : AnalyzerState)
    (v : Nat) (P : ValueType) :
    (refineTypeKnowledge g cur s v P).2.blockToSnapshot = s.blockToSnapshot := by
  simp only [refineTypeKnowledge]
  split <;> first
  | rfl
  | (split <;> rfl)

theorem refineTypeKnowledgeNotNull_fst (g : Graph) (cur : Nat) (s : AnalyzerState) (v : Nat) :
    (refineTypeKnowledgeNotNull g cur s v).1 = s.typesTable (resolveAliases g v) := rfl

theorem refineTypeKnowledgeNotNull_typesTable (g : Graph) (cur : Nat) (s : AnalyzerState)
    (v : Nat) :
    (refineTypeKnowledgeNotNull g cur s v).2.typesTable
      = s.typesTable.set (resolveAliases g v)
          (s.typesTable (resolveAliases g v)).asNonNull := by
  simp only [refineTypeKnowledgeNotNull]
  split <;> first
  | rfl
  | (split <;> rfl)

theorem refineTypeKnowledgeNotNull_blockIsUnreachable (g : Graph) (cur : Nat)
    (s : AnalyzerState) (v : Nat) :
    (refineTypeKnowledgeNotNull g cur s v).2.blockIsUnreachable
      = (if (s.typesTable (resolveAliases g v)).isUninhabited = true
         then cur :: s.blockIsUnreachable else s.blockIsUnreachable) := by
  simp only [refineTypeKnowledgeNotNull]
  split <;> first
  | rfl
  | (split <;> rfl)

theorem refineTypeKnowledgeNotNull_inputTypeMap (g : Graph) (cur : Nat) (s : AnalyzerState)
    (v : Nat) :
    (refineTypeKnowledgeNotNull g cur s v).2.inputTypeMap = s.inputTypeMap := by
  simp only [refineTypeKnowledgeNotNull]
  split <;> first
  | rfl
  | (split <;> rfl)

/-- C3: `RefineTypeKnowledge(v, P)` resolves `v` through its alias chain,
stores `intersect(current, P)` for the resolved identity (under the spec's
`intersect(unknown, t) = t` law, `ValueType.specIntersect`), marks the current
block unreachable exactly when that intersection is uninhabited — the call
returns a state and the analysis proceeds rather than erroring — and returns
the type the resolved value had immediately before the refinement; keys other
than the resolved identity and blocks other than the current one are
untouched. -/
theorem c3_refineTypeKnowledge_spec (g : Graph) (cur : Nat) (s : AnalyzerState) (v : Nat)
    (P : ValueType) :
    (refineTypeKnowledge g cur s v P).1 = s.typesTable (resolveAliases g v)
    ∧ (refineTypeKnowledge g cur s v P).2.typesTable (resolveAliases g v)
        = ValueType.specIntersect (s.typesTable (resolveAliases g v)) P
    ∧ (∀ k, k ≠ resolveAliases g v →
        (refineTypeKnowledge g cur s v P).2.typesTable k = s.typesTable k)
    ∧ isReachable (refineTypeKnowledge g cur s v P).2 cur
        = (isReachable s cur
            && !(ValueType.specIntersect (s.typesTable (resolveAliases g v)) P).isUninhabited)
    ∧ (∀ b, b ≠ cur → isReachable (refineTypeKnowledge g cur s v P).2 b = isReachable s b) := by
  refine ⟨rfl, ?_, ?_, ?_, ?_⟩
  · rw [refineTypeKnowledge_typesTable, TMap.get_set_self]
  · intro k hk
    rw [refineTypeKnowledge_typesTable, TMap.get_set_ne _ _ _ _ hk]
  · by_cases hu :
      (ValueType.specIntersect (s.typesTable (resolveAliases g v)) P).isUninhabited = true
    · simp [isReachable, refineTypeKnowledge_blockIsUnreachable, hu]
    · rw [Bool.not_eq_true] at hu
      simp [isReachable, refineTypeKnowledge_blockIsUnreachable, hu]
  · intro b hb
    by_cases hu :
      (ValueType.specIntersect (s.typesTable (resolveAliases g v)) P).isUninhabited = true
    · simp [isReachable, refineTypeKnowledge_blockIsUnreachable, hu, List.contains_cons, hb]
    · simp [isReachable, refineTypeKnowledge_blockIsUnreachable, hu]

/-- Witness for C3 at a concrete input: object 0 known as `tS`, refined with
`tA`; the intersection is `ref {1} false`, nothing becomes unreachable, and
the previous type `tS` is returned. -/
theorem c3_refineTypeKnowledge_spec_witness :
    ((refineTypeKnowledge wEnvStruct.graph 7 wStateStruct 0 tA).1 = tS
      ∧ (refineTypeKnowledge wEnvStruct.graph 7 wStateStruct 0 tA).2.typesTable 0
          = ValueType.ref {1} false
      ∧ isReachable (refineTypeKnowledge wEnvStruct.graph 7 wStateStruct 0 tA).2 7 = true)
    ∧ (1 : Nat) ≠ resolveAliases wEnvStruct.graph 0
    ∧ (refineTypeKnowledge wEnvStruct.graph 7 wStateStruct 0 tA).2.typesTable 1
        = ValueType.unknown := by
  have h := c3_refineTypeKnowledge_spec wEnvStruct.graph 7 wStateStruct 0 tA
  refine ⟨⟨?_, ?_, ?_⟩, by decide, ?_⟩
  · rw [h.1]; decide
  · have := h.2.1
    rw [show resolveAliases wEnvStruct.graph 0 = 0 from rfl] at this
    rw [this]; decide
  · have := h.2.2.2.1
    rw [this]; decide
  · have := h.2.2.1 1 (by decide)
    rw [this]; decide

/-- C9: `RefineTypeKnowledgeNotNull` (the implicit null check shared by
struct.get, struct.set and array.len) marks the current block unreachable
exactly when the object's previously stored type was already uninhabited
before the narrowing, stores `AsNonNull(previous)` without an intersection,
and returns the previous type; consequently, when the previous type is the
null sentinel, the stored result is uninhabited while this call leaves the
block's reachability unchanged. -/
theorem c9_refineTypeKnowledgeNotNull_spec (g : Graph) (cur : Nat) (s : AnalyzerState)
    (v : Nat) :
    (refineTypeKnowledgeNotNull g cur s v).1 = s.typesTable (resolveAliases g v)
    ∧ (refineTypeKnowledgeNotNull g cur s v).2.typesTable (resolveAliases g v)
        = (s.typesTable (resolveAliases g v)).asNonNull
    ∧ isReachable (refineTypeKnowledgeNotNull g cur s v).2 cur
        = (isReachable s cur && !(s.typesTable (resolveAliases g v)).isUninhabited)
    ∧ (s.typesTable (resolveAliases g v) = ValueType.ref ∅ true →
        ((refineTypeKnowledgeNotNull g cur s v).2.typesTable
            (resolveAliases g v)).isUninhabited = true
        ∧ isReachable (refineTypeKnowledgeNotNull g cur s v).2 cur = isReachable s cur) := by
  refine ⟨rfl, ?_, ?_, ?_⟩
  · rw [refineTypeKnowledgeNotNull_typesTable, TMap.get_set_self]
  · by_cases hu : (s.typesTable (resolveAliases g v)).isUninhabited = true
    · simp [isReachable, refineTypeKnowledgeNotNull_blockIsUnreachable, hu]
    · rw [Bool.not_eq_true] at hu
      simp [isReachable, refineTypeKnowledgeNotNull_blockIsUnreachable, hu]
  · intro hnull
    constructor
    · rw [refineTypeKnowledgeNotNull_typesTable, TMap.get_set_self, hnull]
      decide
    · by_cases hu : (s.typesTable (resolveAliases g v)).isUninhabited = true
      · rw [hnull] at hu; exact absurd hu (by decide)
      · simp [isReachable, refineTypeKnowledgeNotNull_blockIsUnreachable, hu]

/-- Witness for C9 at a concrete input: the object's previous type is the
null sentinel `ref ∅ true`; the stored narrowing is uninhabited while the
block stays reachable. -/
theorem c9_refineTypeKnowledgeNotNull_spec_witness :
    (wStateNullObj.typesTable (resolveAliases wEnvStruct.graph 0) = ValueType.ref ∅ true)
    ∧ ((refineTypeKnowledgeNotNull wEnvStruct.graph 7 wStateNullObj 0).2.typesTable
          (resolveAliases wEnvStruct.graph 0)).isUninhabited = true
    ∧ isReachable (refineTypeKnowledgeNotNull wEnvStruct.graph 7 wStateNullObj 0).2 7
        = isReachable wStateNullObj 7 := by
  have h := (c9_refineTypeKnowledgeNotNull_spec wEnvStruct.graph 7 wStateNullObj 0).2.2.2
    (by decide)
  exact ⟨by decide, h.1, h.2⟩

/-- C5: at the single-predecessor target of a branch whose condition is a
type check of an object against `U` (`ProcessBranchOnTarget`): the true
target refines the object with `U`; the false target is marked unreachable —
with no change to any type — when the object's currently known type is
already a subtype of `U`, and when it is not provably a subtype the state is
returned untouched, so no refinement of the object happens on that edge at
all. -/
theorem c5_processBranchOnTarget_typecheck (env : Env) (cur target : Nat)
    (s : AnalyzerState) (cond tIdx fIdx obj : Nat) (U : ValueType)
    (hcond : env.graph.producer cond = Op.wasmTypeCheck obj U) :
    (tIdx = target →
      processBranchOnTarget env cur target s cond tIdx fIdx
        = (refineTypeKnowledge env.graph cur s obj U).2)
    ∧ (tIdx ≠ target → ValueType.isSubtypeOf (getResolvedType env.graph s obj) U = true →
        processBranchOnTarget env cur target s cond tIdx fIdx
          = { s with blockIsUnreachable := target :: s.blockIsUnreachable })
    ∧ (tIdx ≠ target → ValueType.isSubtypeOf (getResolvedType env.graph s obj) U = false →
        processBranchOnTarget env cur target s cond tIdx fIdx = s) := by
  refine ⟨?_, ?_, ?_⟩
  · intro h
    simp [processBranchOnTarget, hcond, h]
  · intro h hsub
    simp [processBranchOnTarget, hcond, h, hsub]
  · intro h hsub
    simp [processBranchOnTarget, hcond, h, hsub]

/-- Witness for C5 at concrete inputs: a type check of the unknown-typed
object 0 against `tA`; on the false target (scenario C) nothing is refined,
and on the true target the object is refined with `tA`. -/
theorem c5_processBranchOnTarget_typecheck_witness :
    wEnvBranch.graph.producer 1 = Op.wasmTypeCheck 0 tA
    ∧ (3 : Nat) ≠ 4
    ∧ ValueType.isSubtypeOf (getResolvedType wEnvBranch.graph baseState 0) tA = false
    ∧ processBranchOnTarget wEnvBranch 4 4 baseState 1 3 4 = baseState
    ∧ processBranchOnTarget wEnvBranch 3 3 baseState 1 3 4
        = (refineTypeKnowledge wEnvBranch.graph 3 baseState 0 tA).2 := by
  refine ⟨by decide, by decide, by decide, ?_, ?_⟩
  · exact (c5_processBranchOnTarget_typecheck wEnvBranch 4 4 baseState 1 3 4 0 tA
      (by decide)).2.2 (by decide) (by decide)
  · exact (c5_processBranchOnTarget_typecheck wEnvBranch 3 3 baseState 1 3 4 0 tA
      (by decide)).1 rfl

/-- C7: for a struct field read (`ProcessStructGet`) on an object whose known
type before the read is a nullable `S?`: the input-type metadata recorded for
the operation is the pre-narrowing `S?`, and the field-read result's known
type after the read is exactly the declared field type `F`. The state `s` is
universally quantified, so both facts hold independently of any narrower type
previously known for an unrelated earlier value. -/
theorem c7_processStructGet_spec (env : Env) (cur : Nat) (s : AnalyzerState)
    (idx obj typeIndex fieldIndex : Nat) (hS : Finset Nat)
    (hobjTy : s.typesTable (resolveAliases env.graph obj) = ValueType.ref hS true)
    (hres : resolveAliases env.graph idx = idx)
    (hne : resolveAliases env.graph obj ≠ idx)
    (hfresh : s.typesTable idx = ValueType.unknown) :
    (processStructGet env cur s idx obj typeIndex fieldIndex).inputTypeMap idx
      = some (ValueType.ref hS true)
    ∧ (processStructGet env cur s idx obj typeIndex fieldIndex).typesTable idx
      = structFieldType env typeIndex fieldIndex
    ∧ (processStructGet env cur s idx obj typeIndex fieldIndex).typesTable
        (resolveAliases env.graph obj) = ValueType.ref hS false := by
  have hfst : (refineTypeKnowledgeNotNull env.graph cur s obj).1 = ValueType.ref hS true := by
    rw [refineTypeKnowledgeNotNull_fst, hobjTy]
  have htab : (refineTypeKnowledgeNotNull env.graph cur s obj).2.typesTable
      = s.typesTable.set (resolveAliases env.graph obj) (ValueType.ref hS false) := by
    rw [refineTypeKnowledgeNotNull_typesTable, hobjTy]
    rfl
  refine ⟨?_, ?_, ?_⟩
  · show (refineTypeKnowledge env.graph cur
        (setInputType (refineTypeKnowledgeNotNull env.graph cur s obj).2 idx
          (refineTypeKnowledgeNotNull env.graph cur s obj).1)
        idx (structFieldType env typeIndex fieldIndex)).2.inputTypeMap idx
      = some (ValueType.ref hS true)
    rw [refineTypeKnowledge_inputTypeMap, hfst]
    simp [setInputType]
  · show (refineTypeKnowledge env.graph cur
        (setInputType (refineTypeKnowledgeNotNull env.graph cur s obj).2 idx
          (refineTypeKnowledgeNotNull env.graph cur s obj).1)
        idx (structFieldType env typeIndex fieldIndex)).2.typesTable idx
      = structFieldType env typeIndex fieldIndex
    rw [refineTypeKnowledge_typesTable, hres, TMap.get_set_self]
    have : (setInputType (refineTypeKnowledgeNotNull env.graph cur s obj).2 idx
        (refineTypeKnowledgeNotNull env.graph cur s obj).1).typesTable idx
        = ValueType.unknown := by
      show (refineTypeKnowledgeNotNull env.graph cur s obj).2.typesTable idx
        = ValueType.unknown
      rw [htab, TMap.get_set_ne _ _ _ _ (Ne.symm hne), hfresh]
    rw [this]
    cases structFieldType env typeIndex fieldIndex <;> rfl
  · show (refineTypeKnowledge env.graph cur
        (setInputType (refineTypeKnowledgeNotNull env.graph cur s obj).2 idx
          (refineTypeKnowledgeNotNull env.graph cur s obj).1)
        idx (structFieldType env typeIndex fieldIndex)).2.typesTable
        (resolveAliases env.graph obj)
      = ValueType.ref hS false
    rw [refineTypeKnowledge_typesTable, hres, TMap.get_set_ne _ _ _ _ hne]
    show (refineTypeKnowledgeNotNull env.graph cur s obj).2.typesTable
        (resolveAliases env.graph obj) = ValueType.ref hS false
    rw [htab, TMap.get_set_self]

/-- Witness for C7 at concrete inputs: object 0 has nullable type `tS`
(heaps 1 and 2); reading field 0 of struct type 0 (declared type `tB`)
records `tS` as metadata and seeds the result with `tB`. -/
theorem c7_processStructGet_spec_witness :
    wStateStruct.typesTable (resolveAliases wEnvStruct.graph 0) = ValueType.ref {1, 2} true
    ∧ resolveAliases wEnvStruct.graph 1 = 1
    ∧ resolveAliases wEnvStruct.graph 0 ≠ 1
    ∧ wStateStruct.typesTable 1 = ValueType.unknown
    ∧ (processStructGet wEnvStruct 5 wStateStruct 1 0 0 0).inputTypeMap 1
        = some (ValueType.ref {1, 2} true)
    ∧ (processStructGet wEnvStruct 5 wStateStruct 1 0 0 0).typesTable 1
        = structFieldType wEnvStruct 0 0 := by
  have h := c7_processStructGet_spec wEnvStruct 5 wStateStruct 1 0 0 0 {1, 2}
    (by decide) (by decide) (by decide) (by decide)
  exact ⟨by decide, by decide, by decide, by decide, h.1, h.2.1⟩

/-- The bounded check implies the well-formedness invariant: in-range
operations are checked, out-of-range indices have no pass-through target. -/
theorem Graph.wf_of_wfCheck (g : Graph) (h : g.wfCheck = true) : g.WF := by
  intro i j hij
  by_cases hi : i < g.ops.length
  · have h2 := List.all_eq_true.mp h i (List.mem_range.mpr hi)
    rw [show g.ops.getD i Op.other = g.producer i from rfl, hij] at h2
    exact of_decide_eq_true h2
  · have hprod : g.producer i = Op.other := by
      unfold Graph.producer
      exact List.getD_eq_default _ _ (by omega)
    rw [hprod] at hij
    exact absurd hij (by simp [passTarget])

/-- On a well-formed graph, any fuel exceeding the start index runs the
pass-through chain to its end: the result has no pass-through producer and is
reached from the start by pass-through steps. -/
theorem resolveAliasesFuel_spec (g : Graph) (hwf : g.WF) :
    ∀ fuel i, i < fuel →
      passTarget (g.producer (resolveAliasesFuel g fuel i)) = none
      ∧ Relation.ReflTransGen (PassStep g) i (resolveAliasesFuel g fuel i) := by
  intro fuel
  induction fuel with
  | zero => intro i h; omega
  | succ f ih =>
    intro i h
    cases hcase : passTarget (g.producer i) with
    | some j =>
      have hji := hwf i j hcase
      have hres : resolveAliasesFuel g (f + 1) i = resolveAliasesFuel g f j := by
        simp [resolveAliasesFuel, hcase]
      have hrec := ih j (by omega)
      rw [hres]
      exact ⟨hrec.1, Relation.ReflTransGen.head hcase hrec.2⟩
    | none =>
      have hres : resolveAliasesFuel g (f + 1) i = i := by
        simp [resolveAliasesFuel, hcase]
      rw [hres]
      exact ⟨hcase, Relation.ReflTransGen.refl⟩

/-- A value with a non-pass-through producer resolves to itself. -/
theorem resolveAliases_of_noPass (g : Graph) (i : Nat)
    (h : passTarget (g.producer i) = none) : resolveAliases g i = i := by
  simp [resolveAliases, resolveAliasesFuel, h]

/-- C8: on every graph whose pass-through chains are finite/acyclic (the
structural invariant `Graph.WF`: operands precede their operations), alias
resolution reaches, through pass-through steps only, a value whose producing
operation is not pass-through — the chain's end, which is unique since each
value has at most one pass-through operand — and is idempotent:
`resolve(resolve(v)) = resolve(v)`. -/
theorem c8_resolveAliases_idempotent (g : Graph) (hwf : g.WF) (v : Nat) :
    Relation.ReflTransGen (PassStep g) v (resolveAliases g v)
    ∧ passTarget (g.producer (resolveAliases g v)) = none
    ∧ resolveAliases g (resolveAliases g v) = resolveAliases g v := by
  have h := resolveAliasesFuel_spec g hwf (v + 1) v (by omega)
  exact ⟨h.2, h.1, resolveAliases_of_noPass g _ h.1⟩

/-- Witness for C8 at a concrete input: a three-link pass-through chain
(annotation of assertion of cast) resolves to the underlying object 0 and is
idempotent there. -/
theorem c8_resolveAliases_idempotent_witness :
    wGraphAlias.wfCheck = true
    ∧ resolveAliases wGraphAlias 3 = 0
    ∧ passTarget (wGraphAlias.producer (resolveAliases wGraphAlias 3)) = none
    ∧ resolveAliases wGraphAlias (resolveAliases wGraphAlias 3)
        = resolveAliases wGraphAlias 3 := by
  have h := c8_resolveAliases_idempotent wGraphAlias
    (Graph.wf_of_wfCheck wGraphAlias (by decide)) 3
  exact ⟨by decide, by decide, h.2.1, h.2.2⟩

theorem mergeScan_fst (l : List (ValueType × Bool)) :
    ∀ (first res : ValueType) (eqv : Bool),
      (mergeScan first res eqv l).1 = scanAccum res (l.filterMap pickContrib) := by
  induction l with
  | nil => intro first res eqv; rfl
  | cons p rest ih =>
    intro first res eqv
    obtain ⟨t, r⟩ := p
    by_cases h : r = true ∧ t ≠ ValueType.bottom
    · simp only [mergeScan, pickContrib, List.filterMap_cons, if_pos h, scanAccum]
      rw [ih]
    · simp only [mergeScan, pickContrib, List.filterMap_cons, if_neg h, scanAccum]
      rw [ih]

theorem mergeScan_snd (l : List (ValueType × Bool)) :
    ∀ (first res : ValueType) (eqv : Bool),
      (mergeScan first res eqv l).2
        = (eqv && (l.filterMap pickContrib).all fun t => decide (first = t)) := by
  induction l with
  | nil => intro first res eqv; simp [mergeScan]
  | cons p rest ih =>
    intro first res eqv
    obtain ⟨t, r⟩ := p
    by_cases h : r = true ∧ t ≠ ValueType.bottom
    · simp only [mergeScan, pickContrib, List.filterMap_cons, if_pos h, List.all_cons]
      rw [ih]
      rw [Bool.and_assoc]
    · simp only [mergeScan, pickContrib, List.filterMap_cons, if_neg h]
      rw [ih]

theorem findFirstReachable_spec (l : List (ValueType × Bool)) :
    (l.filterMap pickContrib = []
      ∧ (findFirstReachable l).1 = ValueType.bottom
      ∧ (findFirstReachable l).2.filterMap pickContrib = [])
    ∨ l.filterMap pickContrib
        = (findFirstReachable l).1 :: (findFirstReachable l).2.filterMap pickContrib := by
  induction l with
  | nil => exact Or.inl ⟨rfl, rfl, rfl⟩
  | cons p rest ih =>
    obtain ⟨t, r⟩ := p
    by_cases h : r = true ∧ t ≠ ValueType.bottom
    · right
      simp only [findFirstReachable, pickContrib, List.filterMap_cons, if_pos h]
    · rcases ih with ⟨h1, h2, h3⟩ | h1
      · left
        simp only [findFirstReachable, pickContrib, List.filterMap_cons, if_neg h]
        exact ⟨h1, h2, h3⟩
      · right
        simp only [findFirstReachable, pickContrib, List.filterMap_cons, if_neg h]
        exact h1

/-- The merged value for a key, as a function of the filtered contribution
list alone. -/
theorem mergeKeyFn_fst_eq (l : List (ValueType × Bool)) :
    (mergeKeyFn l).1
      = (match l.filterMap pickContrib with
         | [] => ValueType.bottom
         | f :: rest => scanAccum f rest) := by
  rcases findFirstReachable_spec l with ⟨h1, h2, h3⟩ | h1
  · rw [h1]
    show (mergeScan (findFirstReachable l).1 (findFirstReachable l).1 true
      (findFirstReachable l).2).1 = ValueType.bottom
    rw [mergeScan_fst, h3, h2]
    rfl
  · rw [h1]
    show (mergeScan (findFirstReachable l).1 (findFirstReachable l).1 true
      (findFirstReachable l).2).1 = _
    rw [mergeScan_fst]

/-- The per-key equivalence bit, as a function of the filtered contribution
list alone: every later kept contribution equals the first kept one. -/
theorem mergeKeyFn_snd_eq (l : List (ValueType × Bool)) :
    (mergeKeyFn l).2
      = (match l.filterMap pickContrib with
         | [] => true
         | f :: rest => rest.all fun t => decide (f = t)) := by
  rcases findFirstReachable_spec l with ⟨h1, h2, h3⟩ | h1
  · rw [h1]
    show (mergeScan (findFirstReachable l).1 (findFirstReachable l).1 true
      (findFirstReachable l).2).2 = true
    rw [mergeScan_snd, h3]
    rfl
  · rw [h1]
    show (mergeScan (findFirstReachable l).1 (findFirstReachable l).1 true
      (findFirstReachable l).2).2 = _
    rw [mergeScan_snd, Bool.true_and]

/-- C2 counterexample: the boolean returned by `CreateMergeSnapshot` does not
compare the computed values against what a prior merge at the same site
produced. Two successive merges at one site: the first (both predecessors
`tB`) produces `tB` for key 0; the second (both predecessors `tA`) computes
`tA`, which differs from the prior `tB` — yet the returned boolean of the
second merge is `false`. -/
theorem c2_counterexample :
    createMergeSnapshotMap [wSnapB, wSnapB] [true, true] 0 = tB
    ∧ createMergeSnapshotMap [wSnapA, wSnapA] [true, true] 0 = tA
    ∧ tA ≠ tB
    ∧ createMergeSnapshotBool 1 [wSnapA, wSnapA] [true, true] = false := by
  refine ⟨?_, ?_, by decide, ?_⟩ <;> decide

/-- C2 (amended): the boolean returned by `CreateMergeSnapshot` is `true`
exactly when, for some key, some later reachable non-bottom predecessor
contribution differs from the first reachable non-bottom contribution
(equivalently: the reachable non-bottom contributions for some key are not
all identical). In the driver's fixpoint use over `{old, candidate}` — both
flagged reachable — this reports a key where the old and recomputed values
are both non-bottom and unequal, and that signal is what drives fixpoint
detection. -/
theorem c2_createMergeSnapshotBool_spec (numKeys : Nat) (snaps : List TMap)
    (reach : List Bool) :
    createMergeSnapshotBool numKeys snaps reach = true
      ↔ ∃ k < numKeys,
          ∃ t ∈ ((contribsAt snaps reach k).filterMap pickContrib).tail,
            t ≠ ((contribsAt snaps reach k).filterMap pickContrib).headD
                  ValueType.bottom := by
  rw [createMergeSnapshotBool]
  rw [Bool.not_eq_true', List.all_eq_false]
  constructor
  · rintro ⟨k, hk, hbit⟩
    refine ⟨k, List.mem_range.mp hk, ?_⟩
    rw [mergeKeyFn_snd_eq] at hbit
    rcases hpick : (contribsAt snaps reach k).filterMap pickContrib with _ | ⟨f, rest⟩
    · rw [hpick] at hbit
      simp at hbit
    · rw [hpick] at hbit
      simp only [List.all_eq_true, decide_eq_true_eq] at hbit
      push_neg at hbit
      obtain ⟨t, ht, hne⟩ := hbit
      exact ⟨t, by simp [hpick, ht], by simp [hpick]; exact fun h => hne h.symm⟩
  · rintro ⟨k, hk, t, ht, hne⟩
    refine ⟨k, List.mem_range.mpr hk, ?_⟩
    rw [mergeKeyFn_snd_eq]
    rcases hpick : (contribsAt snaps reach k).filterMap pickContrib with _ | ⟨f, rest⟩
    · rw [hpick] at ht
      simp at ht
    · rw [hpick] at ht hne
      simp only [List.tail_cons] at ht
      simp only [List.headD_cons] at hne
      simp only [List.all_eq_true, decide_eq_true_eq]
      push_neg
      exact ⟨t, ht, fun h => hne h.symm⟩

theorem scanAccum_unknown (ts : List ValueType) :
    scanAccum ValueType.unknown ts = ValueType.unknown := by
  induction ts with
  | nil => rfl
  | cons t ts ih => simpa [scanAccum] using ih

theorem scanAccum_mem_unknown (ts : List ValueType) :
    ∀ res : ValueType, ValueType.unknown ∈ ts → scanAccum res ts = ValueType.unknown := by
  induction ts with
  | nil => intro res h; cases h
  | cons t ts ih =>
    intro res h
    rcases List.mem_cons.mp h with h1 | h1
    · rw [scanAccum, if_pos (Or.inr h1.symm), scanAccum_unknown]
    · rw [scanAccum]
      by_cases hc : res = ValueType.unknown ∨ t = ValueType.unknown
      · rw [if_pos hc, scanAccum_unknown]
      · rw [if_neg hc]
        exact ih _ h1

theorem scanAccum_head_unknown (f : ValueType) (rest : List ValueType)
    (h : ValueType.unknown ∈ f :: rest) : scanAccum f rest = ValueType.unknown := by
  rcases List.mem_cons.mp h with h1 | h1
  · rw [← h1, scanAccum_unknown]
  · exact scanAccum_mem_unknown rest f h1

theorem union_ne_unknown (a b : ValueType) (ha : a ≠ ValueType.unknown)
    (hb : b ≠ ValueType.unknown) : ValueType.union a b ≠ ValueType.unknown := by
  cases a with
  | unknown => exact absurd rfl ha
  | ref h1 n1 =>
    cases b with
    | unknown => exact absurd rfl hb
    | ref h2 n2 => simp [ValueType.union]

theorem toProd_union (a b : ValueType) (ha : a ≠ ValueType.unknown)
    (hb : b ≠ ValueType.unknown) : toProd (ValueType.union a b) = toProd a ⊔ toProd b := by
  cases a with
  | unknown => exact absurd rfl ha
  | ref h1 n1 =>
    cases b with
    | unknown => exact absurd rfl hb
    | ref h2 n2 =>
      show (h1 ∪ h2, n1 || n2) = (h1, n1) ⊔ (h2, n2)
      rw [Prod.mk_sup_mk]
      refine Prod.ext ?_ ?_
      · show h1 ∪ h2 = h1 ⊔ h2
        rw [← Finset.sup_eq_union]
      · show (n1 || n2) = n1 ⊔ n2
        cases n1 <;> cases n2 <;> rfl

/-- Closed form of the merge accumulator on unknown-free input: the pointwise
supremum of all contributions' lattice coordinates. -/
theorem scanAccum_closed (ts : List ValueType) :
    ∀ res : ValueType, res ≠ ValueType.unknown → ValueType.unknown ∉ ts →
      toProd (scanAccum res ts)
          = toProd res ⊔ ((ts.map toProd : Multiset (Finset Nat × Bool)).sup)
        ∧ scanAccum res ts ≠ ValueType.unknown := by
  induction ts with
  | nil =>
    intro res hres _
    constructor
    · show toProd res = toProd res ⊔ (0 : Multiset (Finset Nat × Bool)).sup
      rw [Multiset.sup_zero, sup_bot_eq]
    · exact hres
  | cons t ts ih =>
    intro res hres hts
    have ht : t ≠ ValueType.unknown := fun h => hts (by rw [h]; exact List.mem_cons_self _ _)
    have hts2 : ValueType.unknown ∉ ts := fun h => hts (List.mem_cons_of_mem _ h)
    have hcond : ¬(res = ValueType.unknown ∨ t = ValueType.unknown) := by
      rintro (h | h)
      · exact hres h
      · exact ht h
    have hstep : scanAccum res (t :: ts) = scanAccum (ValueType.union res t) ts := by
      rw [scanAccum, if_neg hcond]
    have hrec := ih (ValueType.union res t) (union_ne_unknown res t hres ht) hts2
    constructor
    · rw [hstep, hrec.1, toProd_union res t hres ht]
      show toProd res ⊔ toProd t ⊔ (ts.map toProd : Multiset (Finset Nat × Bool)).sup
        = toProd res ⊔ ((toProd t ::ₘ (ts.map toProd : Multiset (Finset Nat × Bool))).sup)
      rw [Multiset.sup_cons, sup_assoc]
    · rw [hstep]
      exact hrec.2

/-- The merge value after the first kept contribution is invariant under
permutations of the kept contribution list. -/
theorem scanAccum_perm (f : ValueType) (rest : List ValueType) (f2 : ValueType)
    (rest2 : List ValueType) (hp : (f :: rest).Perm (f2 :: rest2)) :
    scanAccum f rest = scanAccum f2 rest2 := by
  by_cases hu : ValueType.unknown ∈ f :: rest
  · rw [scanAccum_head_unknown f rest hu,
      scanAccum_head_unknown f2 rest2 (hp.mem_iff.mp hu)]
  · have hu2 : ValueType.unknown ∉ f2 :: rest2 := fun h => hu (hp.mem_iff.mpr h)
    have hf : f ≠ ValueType.unknown := fun h => hu (by rw [← h]; exact List.mem_cons_self _ _)
    have hf2 : f2 ≠ ValueType.unknown := fun h => hu2 (by rw [← h]; exact List.mem_cons_self _ _)
    have hr : ValueType.unknown ∉ rest := fun h => hu (List.mem_cons_of_mem _ h)
    have hr2 : ValueType.unknown ∉ rest2 := fun h => hu2 (List.mem_cons_of_mem _ h)
    have h1 := scanAccum_closed rest f hf hr
    have h2 := scanAccum_closed rest2 f2 hf2 hr2
    have hsup : toProd f ⊔ ((rest.map toProd : Multiset (Finset Nat × Bool)).sup)
        = toProd f2 ⊔ ((rest2.map toProd : Multiset (Finset Nat × Bool)).sup) := by
      have hm := Multiset.coe_eq_coe.mpr (hp.map toProd)
      have hs := congrArg Multiset.sup hm
      rw [List.map_cons, List.map_cons, ← Multiset.cons_coe, ← Multiset.cons_coe,
        Multiset.sup_cons, Multiset.sup_cons] at hs
      exact hs
    have hprod : toProd (scanAccum f rest) = toProd (scanAccum f2 rest2) := by
      rw [h1.1, h2.1, hsup]
    have hne1 := h1.2
    have hne2 := h2.2
    cases hv1 : scanAccum f rest with
    | unknown => exact absurd hv1 hne1
    | ref ha na =>
      cases hv2 : scanAccum f2 rest2 with
      | unknown => exact absurd hv2 hne2
      | ref hb nb =>
        rw [hv1, hv2] at hprod
        have : (ha, na) = (hb, nb) := hprod
        rw [Prod.mk.injEq] at this
        rw [this.1, this.2]

/-- The merged value for one key is invariant under permuting the
(value, reachable) contribution pairs. -/
theorem mergeKeyFn_fst_perm (l l2 : List (ValueType × Bool)) (hp : l.Perm l2) :
    (mergeKeyFn l).1 = (mergeKeyFn l2).1 := by
  have hq := hp.filterMap pickContrib
  rw [mergeKeyFn_fst_eq, mergeKeyFn_fst_eq]
  cases h1 : l.filterMap pickContrib with
  | nil =>
    rw [h1] at hq
    have h2 : l2.filterMap pickContrib = [] := hq.symm.eq_nil
    rw [h2]
  | cons f rest =>
    rw [h1] at hq
    cases h2 : l2.filterMap pickContrib with
    | nil =>
      rw [h2] at hq
      exact absurd hq.eq_nil (by simp)
    | cons f2 rest2 =>
      rw [h2] at hq
      exact scanAccum_perm f rest f2 rest2 hq

/-- C6: at a merge over predecessor snapshots with their reachability flags,
the per-key union computed by `CreateMergeSnapshot` is independent of the
order the predecessors are supplied: permuting the (snapshot, flag) pairs
yields the same merged type for every key. -/
theorem c6_createMergeSnapshotMap_perm (snaps snaps2 : List TMap)
    (reach reach2 : List Bool) (hp : (snaps.zip reach).Perm (snaps2.zip reach2)) :
    ∀ k, createMergeSnapshotMap snaps reach k = createMergeSnapshotMap snaps2 reach2 k := by
  intro k
  have hzip : ∀ (ss : List TMap) (rr : List Bool),
      contribsAt ss rr k = (ss.zip rr).map (Prod.map (fun sn => sn k) id) := by
    intro ss rr
    rw [contribsAt, List.zip_map_left]
  have hk : (contribsAt snaps reach k).Perm (contribsAt snaps2 reach2 k) := by
    rw [hzip, hzip]
    exact hp.map (Prod.map (fun sn => sn k) id)
  exact mergeKeyFn_fst_perm _ _ hk

/-- Witness for C6 at a concrete input: swapping two (snapshot, reachability)
pairs — one reachable mapping everything to `tA`, one unreachable mapping
everything to `tB` — leaves the merged value at key 0 unchanged. -/
theorem c6_createMergeSnapshotMap_perm_witness :
    createMergeSnapshotMap [wSnapA, wSnapB] [true, false] 0
      = createMergeSnapshotMap [wSnapB, wSnapA] [false, true] 0
    ∧ createMergeSnapshotMap [wSnapA, wSnapB] [true, false] 0 = tA := by
  constructor
  · exact c6_createMergeSnapshotMap_perm [wSnapA, wSnapB] [wSnapB, wSnapA]
      [true, false] [false, true] (List.Perm.swap (wSnapB, false) (wSnapA, true) []) 0
  · decide

theorem specIntersect_unknown_left (t : ValueType) :
    ValueType.specIntersect ValueType.unknown t = t := by
  cases t <;> rfl

theorem union_ne_bottom (a b : ValueType) (ha : a ≠ ValueType.unknown)
    (hb : b ≠ ValueType.unknown) (ha2 : a ≠ ValueType.bottom)
    (hb2 : b ≠ ValueType.bottom) : ValueType.union a b ≠ ValueType.bottom := by
  cases a with
  | unknown => exact absurd rfl ha
  | ref h1 n1 =>
    cases b with
    | unknown => exact absurd rfl hb
    | ref h2 n2 =>
      intro hcontra
      simp only [ValueType.union, ValueType.bottom, ValueType.ref.injEq] at hcontra
      obtain ⟨hh, hn⟩ := hcontra
      rw [Finset.union_eq_empty] at hh
      simp only [Bool.or_eq_false_iff] at hn
      exact ha2 (by rw [ValueType.bottom, hh.1, hn.1])

theorem accumFrom_cons (u t : ValueType) (cs : List ValueType) :
    accumFrom u (t :: cs)
      = accumFrom
          (if t = ValueType.bottom then u
           else if u = ValueType.bottom then t
           else ValueType.union u t) cs := rfl

/-- The phi accumulation loop computes `accumFrom`, or reports an early
return when some contribution is unknown. -/
theorem phiUnionLoop_spec (env : Env) (s : AnalyzerState) :
    ∀ (rest : List Nat) (k : Nat) (u : ValueType),
      phiUnionLoop env s rest k u
        = (if ValueType.unknown ∈ phiContribs env s rest k then none
           else some (accumFrom u (phiContribs env s rest k))) := by
  intro rest
  induction rest with
  | nil =>
    intro k u
    simp [phiUnionLoop, phiContribs, accumFrom]
  | cons i rest ih =>
    intro k u
    rw [phiUnionLoop]
    by_cases h1 : getPredecessorValue s (resolveAliases env.graph i) k = ValueType.unknown
    · rw [if_pos h1]
      have hm : ValueType.unknown ∈ phiContribs env s (i :: rest) k := by
        rw [phiContribs]
        exact h1 ▸ List.mem_cons_self _ _
      rw [if_pos hm]
    · rw [if_neg h1]
      have hmem : ValueType.unknown ∈ phiContribs env s (i :: rest) k
          ↔ ValueType.unknown ∈ phiContribs env s rest (k + 1) := by
        rw [phiContribs, List.mem_cons]
        constructor
        · rintro (h | h)
          · exact absurd h.symm h1
          · exact h
        · exact Or.inr
      have hcons : phiContribs env s (i :: rest) k
          = getPredecessorValue s (resolveAliases env.graph i) k
            :: phiContribs env s rest (k + 1) := rfl
      by_cases h2 : getPredecessorValue s (resolveAliases env.graph i) k = ValueType.bottom
      · rw [if_pos h2, ih]
        by_cases hm : ValueType.unknown ∈ phiContribs env s rest (k + 1)
        · rw [if_pos hm, if_pos (hmem.mpr hm)]
        · rw [if_neg hm, if_neg (fun hh => hm (hmem.mp hh))]
          rw [hcons, accumFrom_cons, if_pos h2]
      · rw [if_neg h2]
        by_cases h3 : u = ValueType.bottom
        · rw [if_pos h3, ih]
          by_cases hm : ValueType.unknown ∈ phiContribs env s rest (k + 1)
          · rw [if_pos hm, if_pos (hmem.mpr hm)]
          · rw [if_neg hm, if_neg (fun hh => hm (hmem.mp hh))]
            rw [hcons, accumFrom_cons, if_neg h2, if_pos h3]
        · rw [if_neg h3, ih]
          by_cases hm : ValueType.unknown ∈ phiContribs env s rest (k + 1)
          · rw [if_pos hm, if_pos (hmem.mpr hm)]
          · rw [if_neg hm, if_neg (fun hh => hm (hmem.mp hh))]
            rw [hcons, accumFrom_cons, if_neg h2, if_neg h3]

/-- The fold from the first contribution equals the spec-side phi merge (drop
bottoms, union the rest) over the whole contribution list. -/
theorem accumFrom_eq_phiAccum (cs : List ValueType) :
    ∀ u : ValueType, u ≠ ValueType.unknown → ValueType.unknown ∉ cs →
      accumFrom u cs = phiAccum (u :: cs) := by
  induction cs with
  | nil =>
    intro u hu _
    by_cases hb : u = ValueType.bottom
    · simp [accumFrom, phiAccum, hb]
    · simp [accumFrom, phiAccum, hb]
  | cons t cs ih =>
    intro u hu hmem
    have ht : t ≠ ValueType.unknown := by
      intro h
      exact hmem (by rw [h]; exact List.mem_cons_self _ _)
    have hcs : ValueType.unknown ∉ cs := fun h => hmem (List.mem_cons_of_mem _ h)
    rw [accumFrom_cons]
    by_cases h2 : t = ValueType.bottom
    · rw [if_pos h2, ih u hu hcs]
      have hfil : (u :: t :: cs).filter (fun x => !decide (x = ValueType.bottom))
          = (u :: cs).filter (fun x => !decide (x = ValueType.bottom)) := by
        simp [List.filter_cons, h2]
      rw [phiAccum, phiAccum, hfil]
    · rw [if_neg h2]
      by_cases h3 : u = ValueType.bottom
      · rw [if_pos h3, ih t ht hcs]
        have hfil : (u :: t :: cs).filter (fun x => !decide (x = ValueType.bottom))
            = (t :: cs).filter (fun x => !decide (x = ValueType.bottom)) := by
          simp [List.filter_cons, h3]
        rw [phiAccum, phiAccum, hfil]
      · rw [if_neg h3, ih (ValueType.union u t) (union_ne_unknown u t hu ht) hcs]
        have hub := union_ne_bottom u t hu ht h3 h2
        have hfil1 : (ValueType.union u t :: cs).filter
            (fun x => !decide (x = ValueType.bottom))
            = ValueType.union u t :: cs.filter (fun x => !decide (x = ValueType.bottom)) := by
          simp [List.filter_cons, hub]
        have hfil2 : (u :: t :: cs).filter (fun x => !decide (x = ValueType.bottom))
            = u :: t :: cs.filter (fun x => !decide (x = ValueType.bottom)) := by
          simp [List.filter_cons, h2, h3]
        rw [phiAccum, phiAccum, hfil1, hfil2]
        show (cs.filter fun x => !decide (x = ValueType.bottom)).foldl
            ValueType.union (ValueType.union u t)
          = (t :: cs.filter fun x => !decide (x = ValueType.bottom)).foldl ValueType.union u
        rw [List.foldl_cons]

/-- C4: `ProcessPhi` on a phi with at least one input. On a loop header's
first (optimistic) evaluation the result is refined with the type of input 0
only. Otherwise the merge starts from predecessor 0's contributed type, skips
every subsequent bottom contribution, leaves the result `unknown` when any
contribution is `unknown` (the refinement is skipped entirely, so a
previously unknown result stays unknown), and otherwise the result becomes
the union of the remaining contributions (`phiAccum`). -/
theorem c4_processPhi_spec (env : Env) (cur : Nat) (s : AnalyzerState) (idx : Nat)
    (inputs : List Nat) (hne : inputs ≠ [])
    (hprev : s.typesTable (resolveAliases env.graph idx) = ValueType.unknown) :
    (s.isFirstLoopHeaderEvaluation = true →
      (processPhi env cur s idx inputs).typesTable (resolveAliases env.graph idx)
        = getResolvedType env.graph s (inputs.headD 0))
    ∧ (s.isFirstLoopHeaderEvaluation = false →
        (ValueType.unknown ∈ phiContribs env s inputs 0 →
          (processPhi env cur s idx inputs).typesTable (resolveAliases env.graph idx)
            = ValueType.unknown)
        ∧ (ValueType.unknown ∉ phiContribs env s inputs 0 →
          (processPhi env cur s idx inputs).typesTable (resolveAliases env.graph idx)
            = phiAccum (phiContribs env s inputs 0))) := by
  constructor
  · intro hfirst
    rw [processPhi.eq_def, if_pos hfirst]
    rw [refineTypeKnowledge_typesTable, TMap.get_set_self, hprev, specIntersect_unknown_left]
  · intro hfirst
    cases inputs with
    | nil => exact absurd rfl hne
    | cons i0 rest =>
      have hstep : processPhi env cur s idx (i0 :: rest)
          = (if getPredecessorValue s (resolveAliases env.graph i0) 0 = ValueType.unknown
             then s
             else
              match phiUnionLoop env s rest 1
                  (getPredecessorValue s (resolveAliases env.graph i0) 0) with
              | none => s
              | some u => (refineTypeKnowledge env.graph cur s idx u).2) := by
        rw [processPhi.eq_def, if_neg (by rw [hfirst]; exact Bool.false_ne_true)]
      have hcons : phiContribs env s (i0 :: rest) 0
          = getPredecessorValue s (resolveAliases env.graph i0) 0
            :: phiContribs env s rest 1 := rfl
      by_cases h0 : getPredecessorValue s (resolveAliases env.graph i0) 0 = ValueType.unknown
      · rw [hstep, if_pos h0]
        constructor
        · intro _
          exact hprev
        · intro hnm
          exact absurd (by rw [hcons]; exact h0 ▸ List.mem_cons_self _ _) hnm
      · rw [hstep, if_neg h0, phiUnionLoop_spec]
        by_cases hm : ValueType.unknown ∈ phiContribs env s rest 1
        · rw [if_pos hm]
          constructor
          · intro _
            exact hprev
          · intro hnm
            exact absurd (by rw [hcons]; exact List.mem_cons_of_mem _ hm) hnm
        · rw [if_neg hm]
          constructor
          · intro hmem
            rw [hcons, List.mem_cons] at hmem
            rcases hmem with h | h
            · exact absurd h.symm h0
            · exact absurd h hm
          · intro _
            show (refineTypeKnowledge env.graph cur s idx
              (accumFrom (getPredecessorValue s (resolveAliases env.graph i0) 0)
                (phiContribs env s rest 1))).2.typesTable (resolveAliases env.graph idx)
              = phiAccum (phiContribs env s (i0 :: rest) 0)
            rw [refineTypeKnowledge_typesTable, TMap.get_set_self, hprev,
              specIntersect_unknown_left, hcons]
            exact accumFrom_eq_phiAccum (phiContribs env s rest 1) _ h0 hm

/-- Witness for C4 at concrete inputs: a phi over values 0 and 1 whose merge
contributions are `tA` and `tB`; the result becomes their union `tC`. -/
theorem c4_processPhi_spec_witness :
    ([0, 1] : List Nat) ≠ []
    ∧ wStatePhi.typesTable (resolveAliases wEnvPhi.graph 2) = ValueType.unknown
    ∧ wStatePhi.isFirstLoopHeaderEvaluation = false
    ∧ ValueType.unknown ∉ phiContribs wEnvPhi wStatePhi [0, 1] 0
    ∧ (processPhi wEnvPhi 1 wStatePhi 2 [0, 1]).typesTable
        (resolveAliases wEnvPhi.graph 2) = tC := by
  have h := ((c4_processPhi_spec wEnvPhi 1 wStatePhi 2 [0, 1] (by decide) (by decide)).2
    (by decide)).2 (by decide)
  refine ⟨by decide, by decide, by decide, by decide, ?_⟩
  rw [h]
  decide

theorem refineTypeKnowledgeNotNull_blockToSnapshot (g : Graph) (cur : Nat)
    (s : AnalyzerState) (v : Nat) :
    (refineTypeKnowledgeNotNull g cur s v).2.blockToSnapshot = s.blockToSnapshot := by
  simp only [refineTypeKnowledgeNotNull]
  split <;> first
  | rfl
  | (split <;> rfl)

theorem processPhi_blockToSnapshot (env : Env) (cur : Nat) (s : AnalyzerState) (idx : Nat)
    (inputs : List Nat) :
    (processPhi env cur s idx inputs).blockToSnapshot = s.blockToSnapshot := by
  by_cases hfirst : s.isFirstLoopHeaderEvaluation = true
  · rw [processPhi.eq_def, if_pos hfirst, refineTypeKnowledge_blockToSnapshot]
  · rw [processPhi.eq_def, if_neg hfirst]
    cases inputs with
    | nil => rfl
    | cons i0 rest =>
      show (if getPredecessorValue s (resolveAliases env.graph i0) 0 = ValueType.unknown
            then s
            else
              match phiUnionLoop env s rest 1
                  (getPredecessorValue s (resolveAliases env.graph i0) 0) with
              | none => s
              | some u => (refineTypeKnowledge env.graph cur s idx u).2).blockToSnapshot
        = s.blockToSnapshot
      split
      · rfl
      · split
        · rfl
        · rw [refineTypeKnowledge_blockToSnapshot]

theorem processBranchOnTarget_blockToSnapshot (env : Env) (cur target : Nat)
    (s : AnalyzerState) (cond t f : Nat) :
    (processBranchOnTarget env cur target s cond t f).blockToSnapshot
      = s.blockToSnapshot := by
  rw [processBranchOnTarget.eq_def]
  repeat' split
  all_goals first
  | rfl
  | rw [refineTypeKnowledge_blockToSnapshot]

theorem processOperation_blockToSnapshot (env : Env) (cur : Nat) (s : AnalyzerState)
    (idx : Nat) :
    (processOperation env cur s idx).blockToSnapshot = s.blockToSnapshot := by
  rw [processOperation.eq_def]
  split
  all_goals first
  | rfl
  | exact processPhi_blockToSnapshot env cur s idx _
  | (simp only [processTypeCast, processTypeCheck, processAssertNotNull, processNull,
      processIsNull, processStructGet, processStructSet, processArrayLength,
      processGlobalGet, processRefFunc, processTypeAnnotationOp, setInputType,
      refineTypeKnowledge_blockToSnapshot, refineTypeKnowledgeNotNull_blockToSnapshot])
  | (simp only [processParameter]
     split
     · rw [refineTypeKnowledge_blockToSnapshot]
     · rfl)
  | (simp only [processAllocateArray]
     split
     · rw [refineTypeKnowledge_blockToSnapshot]
     · rfl)
  | (simp only [processAllocateStruct]
     split
     · rw [refineTypeKnowledge_blockToSnapshot]
     · rfl)

theorem foldl_processOperation_blockToSnapshot (env : Env) (cur : Nat) :
    ∀ (l : List Nat) (s : AnalyzerState),
      (l.foldl (fun st idx => processOperation env cur st idx) s).blockToSnapshot
        = s.blockToSnapshot := by
  intro l
  induction l with
  | nil => intro s; rfl
  | cons a l ih =>
    intro s
    rw [List.foldl_cons, ih, processOperation_blockToSnapshot]

theorem startNewSnapshotFor_blockToSnapshot (env : Env) (s : AnalyzerState) (b : Block) :
    (startNewSnapshotFor env s b).blockToSnapshot = s.blockToSnapshot := by
  rw [startNewSnapshotFor.eq_def]
  repeat' split
  all_goals first
  | rfl
  | (rw [processBranchOnTarget_blockToSnapshot]; rfl)
  | simp [seedFromLastPredecessor, resetForBlock, createMergeSnapshotForBlock]

/-- Processing a block never writes the per-block snapshot store; only the
seal step after it does. -/
theorem processBlock_blockToSnapshot (env : Env) (s : AnalyzerState) (b : Block) :
    (processBlock env s b).blockToSnapshot = s.blockToSnapshot := by
  rw [processBlock, processOperations, foldl_processOperation_blockToSnapshot,
    startNewSnapshotFor_blockToSnapshot]

/-- Unfolding of the driver step when the block ends in a goto. -/
theorem runStep_goto (env : Env) (s : AnalyzerState) (b : Block) (d : Nat)
    (hop : lastOperation env b = Op.goto d) :
    runStep env s b
      = (if isReachable (sealAndStore env s b) b.index = true
            ∧ (getBlock env d).kind = BlockKind.loopHeader
            ∧ lastPredecessor (getBlock env d) = b.index then
           if createMergeSnapshotBool env.graph.ops.length
               [getSnapshot (sealAndStore env s b) d,
                (processBlock env (sealAndStore env s b) (getBlock env d)).typesTable]
               [true, true] = true then
             ({ processBlock env (sealAndStore env s b) (getBlock env d) with
                  blockToSnapshot := fun j =>
                    if j = d then
                      some (processBlock env (sealAndStore env s b)
                        (getBlock env d)).typesTable
                    else (processBlock env (sealAndStore env s b)
                      (getBlock env d)).blockToSnapshot j },
              [Event.processed b.index, Event.processed d,
               Event.markLoopForRevisitSkipHeader d])
           else
             (processBlock env (sealAndStore env s b) (getBlock env d),
              [Event.processed b.index, Event.processed d])
         else (sealAndStore env s b, [Event.processed b.index])) := by
  rw [runStep.eq_def, hop]

/-- Unfolding of the driver step when the block does not end in a goto. -/
theorem runStep_not_goto (env : Env) (s : AnalyzerState) (b : Block)
    (hop : ∀ d, lastOperation env b ≠ Op.goto d) :
    runStep env s b = (sealAndStore env s b, [Event.processed b.index]) := by
  rw [runStep.eq_def]
  cases h : lastOperation env b <;> first
  | rfl
  | exact absurd h (hop _)

/-- C1 counterexample: the driver does not store the `{old, candidate}` merged
snapshot — it discards it after extracting the comparison boolean, and stores
the recomputed candidate snapshot. In the concrete loop `wEnvLoop`, after the
closing block is sealed a revisit is scheduled, the stored header snapshot
maps value 5 (defined only inside the loop body) to `tB`, while the merged
snapshot from {old header snapshot, candidate} maps value 5 to `unknown`:
what the claim says is stored differs from what the code stores. -/
theorem c1_counterexample :
    (runStep wEnvLoop wStateLoop wBlockClosing).2.contains
        (Event.markLoopForRevisitSkipHeader 1) = true
    ∧ getSnapshot (runStep wEnvLoop wStateLoop wBlockClosing).1 1 5 = tB
    ∧ createMergeSnapshotMap
        [getSnapshot (sealAndStore wEnvLoop wStateLoop wBlockClosing) 1,
         (processBlock wEnvLoop (sealAndStore wEnvLoop wStateLoop wBlockClosing)
            (getBlock wEnvLoop 1)).typesTable]
        [true, true] 5 = ValueType.unknown
    ∧ tB ≠ ValueType.unknown := by
  refine ⟨?_, ?_, ?_, by decide⟩ <;> decide

/-- C1 (amended): for every loop whose closing block `b` ends in a goto to
its loop header `d` (with `b` the header's last, back-edge predecessor) and
is reachable once processed and sealed: the driver re-processes the header
exactly once, obtaining a candidate snapshot (itself seeded by merging the
forward- and back-edge snapshots); it compares old and candidate through the
merge operation's equivalence signal and discards the comparison's merged
snapshot; if a difference is reported it stores the candidate snapshot — not
the discarded `{old, candidate}` merge — as the header's canonical snapshot
and schedules exactly one body revisit that skips re-deriving the header in
this round; if no difference is reported, the header snapshot is left
unchanged and no revisit is scheduled. -/
theorem c1_runStep_loopRevisit (env : Env) (s : AnalyzerState) (b : Block) (d : Nat)
    (hgoto : lastOperation env b = Op.goto d)
    (hreach : isReachable (sealAndStore env s b) b.index = true)
    (hloop : (getBlock env d).kind = BlockKind.loopHeader)
    (hback : lastPredecessor (getBlock env d) = b.index)
    (hne : b.index ≠ d) :
    (runStep env s b).2.count (Event.processed d) = 1
    ∧ (runStep env s b).2.count (Event.markLoopForRevisitSkipHeader d)
        = (if createMergeSnapshotBool env.graph.ops.length
              [getSnapshot (sealAndStore env s b) d,
               (processBlock env (sealAndStore env s b) (getBlock env d)).typesTable]
              [true, true] = true then 1 else 0)
    ∧ (runStep env s b).1.blockToSnapshot d
        = (if createMergeSnapshotBool env.graph.ops.length
              [getSnapshot (sealAndStore env s b) d,
               (processBlock env (sealAndStore env s b) (getBlock env d)).typesTable]
              [true, true] = true then
             some (processBlock env (sealAndStore env s b) (getBlock env d)).typesTable
           else (sealAndStore env s b).blockToSnapshot d)
    ∧ (createMergeSnapshotBool env.graph.ops.length
          [getSnapshot (sealAndStore env s b) d,
           (processBlock env (sealAndStore env s b) (getBlock env d)).typesTable]
          [true, true] = false →
        (runStep env s b).1 = processBlock env (sealAndStore env s b) (getBlock env d)) := by
  have hguard : isReachable (sealAndStore env s b) b.index = true
      ∧ (getBlock env d).kind = BlockKind.loopHeader
      ∧ lastPredecessor (getBlock env d) = b.index := ⟨hreach, hloop, hback⟩
  rw [runStep_goto env s b d hgoto, if_pos hguard]
  by_cases hneed : createMergeSnapshotBool env.graph.ops.length
      [getSnapshot (sealAndStore env s b) d,
       (processBlock env (sealAndStore env s b) (getBlock env d)).typesTable]
      [true, true] = true
  · rw [if_pos hneed]
    refine ⟨?_, ?_, ?_, ?_⟩
    · simp [List.count_cons, beq_iff_eq, hne]
    · rw [if_pos hneed]
      simp [List.count_cons, beq_iff_eq]
    · rw [if_pos hneed]
      simp
    · intro hfalse
      rw [hneed] at hfalse
      cases hfalse
  · rw [if_neg hneed]
    refine ⟨?_, ?_, ?_, ?_⟩
    · simp [List.count_cons, beq_iff_eq, hne]
    · rw [if_neg hneed]
      simp [List.count_cons, beq_iff_eq]
    · rw [if_neg hneed]
      rw [processBlock_blockToSnapshot]
    · intro _
      rfl

/-- Witness for C1 (amended) at the concrete loop `wEnvLoop`: the closing
block 2 ends in the back-edge goto to reachable header 1, and the driver
re-processes the header exactly once. -/
theorem c1_runStep_loopRevisit_witness :
    lastOperation wEnvLoop wBlockClosing = Op.goto 1
    ∧ isReachable (sealAndStore wEnvLoop wStateLoop wBlockClosing)
        wBlockClosing.index = true
    ∧ (getBlock wEnvLoop 1).kind = BlockKind.loopHeader
    ∧ lastPredecessor (getBlock wEnvLoop 1) = wBlockClosing.index
    ∧ wBlockClosing.index ≠ 1
    ∧ (runStep wEnvLoop wStateLoop wBlockClosing).2.count (Event.processed 1) = 1 := by
  refine ⟨by decide, by decide, by decide, by decide, by decide, ?_⟩
  exact (c1_runStep_loopRevisit wEnvLoop wStateLoop wBlockClosing 1 (by decide) (by decide)
    (by decide) (by decide) (by decide)).1

/-- C10: the post-seal loop-revisit step runs only from a reachable closing
block that is the destination header's last (back-edge) predecessor: when
block `b` is marked unreachable after being processed and sealed — or its
last operation's goto destination is not a loop header having `b` as last
predecessor — the driver neither re-processes a header nor schedules any
revisit: the step's state is exactly the sealed state and its only event is
processing `b` itself. -/
theorem c10_runStep_noRevisit_guard (env : Env) (s : AnalyzerState) (b : Block)
    (h : isReachable (sealAndStore env s b) b.index = false
         ∨ ∀ d, lastOperation env b = Op.goto d →
             ¬((getBlock env d).kind = BlockKind.loopHeader
               ∧ lastPredecessor (getBlock env d) = b.index)) :
    (runStep env s b).1 = sealAndStore env s b
    ∧ (runStep env s b).2 = [Event.processed b.index] := by
  by_cases hop : ∃ d, lastOperation env b = Op.goto d
  · obtain ⟨d, hd⟩ := hop
    have hguard : ¬(isReachable (sealAndStore env s b) b.index = true
        ∧ (getBlock env d).kind = BlockKind.loopHeader
        ∧ lastPredecessor (getBlock env d) = b.index) := by
      rcases h with h1 | h1
      · rintro ⟨h2, _⟩
        rw [h1] at h2
        cases h2
      · rintro ⟨h2, h3, h4⟩
        exact h1 d hd ⟨h3, h4⟩
    rw [runStep_goto env s b d hd, if_neg hguard]
    exact ⟨rfl, rfl⟩
  · rw [runStep_not_goto env s b (fun d hd => hop ⟨d, hd⟩)]
    exact ⟨rfl, rfl⟩

/-- Witness for C10 at a concrete input: in `wEnvLoopDead` the closing block
marks itself unreachable (a cast to a disjoint type), so although it ends in
the back-edge goto of loop header 1, no header re-processing and no revisit
happens. -/
theorem c10_runStep_noRevisit_guard_witness :
    isReachable (sealAndStore wEnvLoopDead wStateLoop wBlockClosingDead)
        wBlockClosingDead.index = false
    ∧ lastOperation wEnvLoopDead wBlockClosingDead = Op.goto 1
    ∧ (getBlock wEnvLoopDead 1).kind = BlockKind.loopHeader
    ∧ lastPredecessor (getBlock wEnvLoopDead 1) = wBlockClosingDead.index
    ∧ (runStep wEnvLoopDead wStateLoop wBlockClosingDead).1
        = sealAndStore wEnvLoopDead wStateLoop wBlockClosingDead
    ∧ (runStep wEnvLoopDead wStateLoop wBlockClosingDead).2 = [Event.processed 2] := by
  have h := c10_runStep_noRevisit_guard wEnvLoopDead wStateLoop wBlockClosingDead
    (Or.inl (by decide))
  exact ⟨by decide, by decide, by decide, by decide, h.1, h.2⟩
